import Mathlib

/-!
Verification of the search-configuration export / sanitize / restore pipeline.

The development shallowly embeds the Python sources:
  * `src/scripts/sanitize_data.py`   — the Sanitizer (recursive redaction transform),
  * `src/infra/hooks/configure_search_objects.py` — the Restorer and deploy calls,
  * `src/scripts/dump_az_search.py`  — the Graph Exporter and dependency resolver.

JSON documents are modelled by the inductive type `Json` below (numbers as
integers; the claims under study involve no numeric arithmetic).  Python `dict`s
become ordered association lists, mirroring insertion order, and Python `None`
is `Json.null`.  Functions that can raise in Python return `Option`, with
`none` standing for a raised exception.
-/

/-- A JSON value: null, booleans, numbers, strings, arrays and objects. -/
inductive Json where
  | null
  | bool (b : Bool)
  | num (n : Int)
  | str (s : String)
  | arr (xs : List Json)
  | obj (kvs : List (String × Json))
deriving Repr

mutual
/-- Boolean structural equality on `Json`. -/
def Json.beq : Json → Json → Bool
  | .null, .null => true
  | .bool a, .bool b => a = b
  | .num a, .num b => a = b
  | .str a, .str b => a = b
  | .arr as, .arr bs => Json.beqArr as bs
  | .obj as, .obj bs => Json.beqObj as bs
  | _, _ => false
/-- Boolean equality on JSON arrays. -/
def Json.beqArr : List Json → List Json → Bool
  | [], [] => true
  | a :: as, b :: bs => Json.beq a b && Json.beqArr as bs
  | _, _ => false
/-- Boolean equality on JSON object member lists. -/
def Json.beqObj : List (String × Json) → List (String × Json) → Bool
  | [], [] => true
  | (k, a) :: as, (l, b) :: bs => k = l && Json.beq a b && Json.beqObj as bs
  | _, _ => false
end

mutual
def Json.beq_iff : ∀ a b : Json, Json.beq a b = true ↔ a = b
  | .null, b => by cases b <;> simp [Json.beq]
  | .bool x, b => by cases b <;> simp [Json.beq]
  | .num x, b => by cases b <;> simp [Json.beq]
  | .str x, b => by cases b <;> simp [Json.beq]
  | .arr xs, b => by
      cases b <;> simp [Json.beq]
      exact Json.beqArr_iff xs _
  | .obj xs, b => by
      cases b <;> simp [Json.beq]
      exact Json.beqObj_iff xs _
def Json.beqArr_iff : ∀ as bs : List Json, Json.beqArr as bs = true ↔ as = bs
  | [], bs => by cases bs <;> simp [Json.beqArr]
  | a :: as, bs => by
      cases bs with
      | nil => simp [Json.beqArr]
      | cons b bs =>
          simp [Json.beqArr, Json.beq_iff a b, Json.beqArr_iff as bs]
def Json.beqObj_iff : ∀ as bs : List (String × Json), Json.beqObj as bs = true ↔ as = bs
  | [], bs => by cases bs <;> simp [Json.beqObj]
  | (k, a) :: as, bs => by
      cases bs with
      | nil => simp [Json.beqObj]
      | cons p bs =>
          cases p with
          | mk l b =>
              simp [Json.beqObj, Json.beq_iff a b, Json.beqObj_iff as bs, and_assoc]
end

instance : DecidableEq Json := fun a b =>
  decidable_of_iff (Json.beq a b = true) (Json.beq_iff a b)

/-- Python truthiness of a JSON value (`if value:`): null, `False`, `0`, the
empty string, the empty list and the empty dict are falsy. -/
def truthy : Json → Bool
  | .null => false
  | .bool b => b
  | .num n => n ≠ 0
  | .str s => s ≠ ""
  | .arr xs => !xs.isEmpty
  | .obj kvs => !kvs.isEmpty

/-! ### Association-list primitives for Python `dict` operations -/

/-- Python `k in d` followed by `d[k]` as a total lookup (first occurrence). -/
def lookupKey (kvs : List (String × Json)) (k : String) : Option Json :=
  match kvs.find? (fun p => p.1 = k) with
  | some p => some p.2
  | none => none

/-- Python `d.get(k)`: absent keys yield `None`. -/
def pyGet (kvs : List (String × Json)) (k : String) : Json :=
  (lookupKey kvs k).getD .null

/-- Python `d.get(k, default)`. -/
def pyGetD (kvs : List (String × Json)) (k : String) (d : Json) : Json :=
  (lookupKey kvs k).getD d

/-- Python `d[k] = v`: overwrite the entry in place when the key is present
(keys of a Python dict are unique, so overwriting the first match is exact),
append at the end otherwise — insertion order is preserved. -/
def setKey : List (String × Json) → String → Json → List (String × Json)
  | [], k, v => [(k, v)]
  | p :: rest, k, v => if p.1 = k then (k, v) :: rest else p :: setKey rest k v

/-- Python `d.pop(k, None)`: drop the entry for a key. -/
def dropKey (kvs : List (String × Json)) (k : String) : List (String × Json) :=
  kvs.filter (fun p => !(p.1 = k))

/-! ### String helpers shared by the redaction rules -/

/-- ASCII lowering of a string (Python `str.lower` on the ASCII range). -/
def strLower (s : String) : String := ⟨s.data.map Char.toLower⟩

/-- Lowercase a key and delete `-` and `_`
(`key.lower().replace("-", "").replace("_", "")`). -/
def stripSeparators (s : String) : String :=
  ⟨(s.data.map Char.toLower).filter (fun c => !(c = '-' || c = '_'))⟩

/-- Delete underscores (`k.replace("_", "")`). -/
def removeUnderscores (s : String) : String :=
  ⟨s.data.filter (fun c => !(c = '_'))⟩

/-- Delete underscores and dots (`k.replace("_", "").replace(".", "")`). -/
def removeUnderscoresDots (s : String) : String :=
  ⟨s.data.filter (fun c => !(c = '_' || c = '.'))⟩

/-- Boolean list-prefix test over characters. -/
def listPrefix : List Char → List Char → Bool
  | [], _ => true
  | _ :: _, [] => false
  | a :: as, b :: bs => a = b && listPrefix as bs

/-- Boolean substring test over characters (Python `p in s` on strings). -/
def listInfix (p : List Char) : List Char → Bool
  | [] => listPrefix p []
  | c :: rest => listPrefix p (c :: rest) || listInfix p rest

/-! ### Sanitizer (`src/scripts/sanitize_data.py`) -/

/-- Keys whose values are redacted (`SENSITIVE_KEYS`). -/
def SENSITIVE_KEYS : List String :=
  ["apikey", "api_key", "key", "connectionstring", "connection_string",
   "secret", "password", "token", "accesskey", "primarykey", "secondarykey"]

/-- Keys that contain URLs to redact (`URL_KEYS`). -/
def URL_KEYS : List String :=
  ["@odata.context", "resourceuri", "resource_uri", "uri", "url", "endpoint",
   "subdomainurl"]

/-- The secret placeholder token (`REDACTED_PLACEHOLDER`). -/
def REDACTED_PLACEHOLDER : String := "<REDACTED>"

/-- The endpoint placeholder token (`URL_PLACEHOLDER`). -/
def URL_PLACEHOLDER : String := "<AZURE_ENDPOINT_PLACEHOLDER>"

/-- The container placeholder token (`CONTAINER_PLACEHOLDER`). -/
def CONTAINER_PLACEHOLDER : String := "<BLOB_CONTAINER_PLACEHOLDER>"

/-- Legacy container names replaced with the container placeholder. -/
def LEGACY_CONTAINER_NAMES : List String :=
  ["kr-demos", "sample-documents", "foundry-iq-data"]

/-- Characters allowed in the subdomain part of the URL patterns
(the regex character class of letters, digits and hyphen). -/
def isUrlNameChar (c : Char) : Bool := c.isAlpha || c.isDigit || c = '-'

/-- The literal domain suffixes of `AZURE_URL_PATTERNS` (each pattern is
`https://` + subdomain + suffix + optional tail). -/
def AZURE_URL_SUFFIXES : List (List Char) :=
  [".search.windows.net".data, ".openai.azure.com".data,
   ".cognitiveservices.azure.com".data, ".blob.core.windows.net".data,
   ".documents.azure.com".data]

/-- `is_azure_url`: anchored, case-insensitive match of one of the
`AZURE_URL_PATTERNS` against the start of the string.  Since the subdomain
character class excludes `.`, the regex matches exactly when the maximal
run of subdomain characters after `https://` is non-empty and is followed
by one of the literal domain suffixes. -/
def is_azure_url (s : String) : Bool :=
  let cs := s.data.map Char.toLower
  listPrefix "https://".data cs &&
    (let rest := cs.drop 8
     let run := rest.takeWhile isUrlNameChar
     let after := rest.dropWhile isUrlNameChar
     !run.isEmpty && AZURE_URL_SUFFIXES.any (fun suf => listPrefix suf after))

/-- `should_redact_key`: the key, lowered and with separators removed, is in
the sensitive set (itself with underscores removed). -/
def should_redact_key (key : String) : Bool :=
  (SENSITIVE_KEYS.map removeUnderscores).contains (stripSeparators key)

/-- `should_redact_url_key`: the key, lowered and with separators removed, is
in the URL-key set (itself with underscores and dots removed). -/
def should_redact_url_key (key : String) : Bool :=
  (URL_KEYS.map removeUnderscoresDots).contains (stripSeparators key)

/-- `sanitize_value`: redact a single non-container value by key and content. -/
def sanitize_value (key : String) (value : Json) : Json :=
  match value with
  | .null => .null
  | v =>
    if should_redact_key key then
      match v with
      | .str s => if s ≠ "" ∧ s ≠ "null" then .str REDACTED_PLACEHOLDER else .str s
      | _ => v
    else if should_redact_url_key key then
      match v with
      | .str s => if is_azure_url s then .str URL_PLACEHOLDER else .str s
      | _ => v
    else
      match v with
      | .str s => if is_azure_url s then .str URL_PLACEHOLDER else .str s
      | _ => v

/-- The special handling for container-name fields inside `sanitize_dict`:
key `name` under parent `container`, or key `containerName`, holding one of
the legacy container names. -/
def isContainerNameHit (key parentKey : String) (value : Json) : Bool :=
  (strLower key = "name" || strLower key = "containername") &&
  (strLower parentKey = "container" || strLower key = "containername") &&
  (match value with
   | .str s => LEGACY_CONTAINER_NAMES.contains s
   | _ => false)

mutual
/-- `sanitize_dict(data, parent_key)`: recursively sanitize an object. -/
def sanitize_dict : List (String × Json) → String → List (String × Json)
  | [], _ => []
  | (key, value) :: rest, parentKey =>
      (key, sanitizeEntry key parentKey value) :: sanitize_dict rest parentKey
/-- The body of one `sanitize_dict` loop iteration for the value at `key`. -/
def sanitizeEntry (key parentKey : String) : Json → Json
  | .obj kvs => .obj (sanitize_dict kvs key)
  | .arr xs => .arr (sanitize_list key xs)
  | v =>
      if isContainerNameHit key parentKey v then .str CONTAINER_PLACEHOLDER
      else sanitize_value key v
/-- `sanitize_list(parent_key, data)`: recursively sanitize a list. -/
def sanitize_list : String → List Json → List Json
  | _, [] => []
  | parentKey, x :: xs => sanitizeItem parentKey x :: sanitize_list parentKey xs
/-- The body of one `sanitize_list` loop iteration. -/
def sanitizeItem (parentKey : String) : Json → Json
  | .obj kvs => .obj (sanitize_dict kvs parentKey)
  | .arr xs => .arr (sanitize_list parentKey xs)
  | v => sanitize_value parentKey v
end

/-- The behaviour of the guard `if K in parent and parent[K]:` followed by code
that immediately performs dict operations (`.get` / item assignment) on the
child: an absent or falsy child leaves the object unchanged; a truthy object
child is rewritten through `f`; a truthy non-object child raises. -/
def withObjFieldA (kvs : List (String × Json)) (k : String)
    (f : List (String × Json) → Option (List (String × Json))) :
    Option (List (String × Json)) :=
  match lookupKey kvs k with
  | some (.obj o) =>
      if o.isEmpty then some kvs
      else match f o with
           | some o2 => some (setKey kvs k (.obj o2))
           | none => none
  | some v => if truthy v then none else some kvs
  | none => some kvs

/-- Whether Python raises when the membership tests `"p" in child` run against
a truthy non-dict child: a string raises only if some probe occurs as a
substring (the indexing that follows a hit raises), a list only if it holds a
probe as an element, and any other truthy value raises `TypeError` at once. -/
def probeCrash (probes : List String) : Json → Bool
  | .str s => probes.any (fun p => listInfix p.data s.data)
  | .arr xs => probes.any (fun p => xs.contains (.str p))
  | _ => true

/-- Like `withObjFieldA`, for sites where the child's first use is a sequence
of `"probe" in child` tests, so a truthy non-dict child raises only when a
probe hits (`probeCrash`). -/
def withObjFieldB (kvs : List (String × Json)) (k : String) (probes : List String)
    (f : List (String × Json) → Option (List (String × Json))) :
    Option (List (String × Json)) :=
  match lookupKey kvs k with
  | some (.obj o) =>
      if o.isEmpty then some kvs
      else match f o with
           | some o2 => some (setKey kvs k (.obj o2))
           | none => none
  | some v =>
      if truthy v then (if probeCrash probes v then none else some kvs) else some kvs
  | none => some kvs

/-- Substitution on an `azureOpenAIParameters` block: the endpoint placeholder
at `resourceUri` becomes the live endpoint and the secret placeholder at
`apiKey` becomes the live key. -/
def replaceAOAI (ep ky : String) (a : List (String × Json)) : List (String × Json) :=
  let a2 := if lookupKey a "resourceUri" = some (.str URL_PLACEHOLDER)
            then setKey a "resourceUri" (.str ep) else a
  if lookupKey a2 "apiKey" = some (.str REDACTED_PLACEHOLDER)
  then setKey a2 "apiKey" (.str ky) else a2

/-- Substitution on an `aiServices` block: `uri` and `apiKey` placeholders. -/
def replaceAiSvc (ep ky : String) (a : List (String × Json)) : List (String × Json) :=
  let a2 := if lookupKey a "uri" = some (.str URL_PLACEHOLDER)
            then setKey a "uri" (.str ep) else a
  if lookupKey a2 "apiKey" = some (.str REDACTED_PLACEHOLDER)
  then setKey a2 "apiKey" (.str ky) else a2

/-- Truthiness of the optional AI-services credential pair
(`if ai_services_endpoint and ai_services_key:`). -/
def aiCredsOk : Option String → Option String → Bool
  | some e, some k => e ≠ "" && k ≠ ""
  | _, _ => false

/-- The `aiServices` branch inside the blob ingestion parameters: with live
credentials the placeholders are substituted (the block must then be a dict);
without them the entry is assigned `None`. -/
def handleAiServices (aiEp aiKey : Option String) (ip : List (String × Json)) :
    Option (List (String × Json)) :=
  match lookupKey ip "aiServices" with
  | some v =>
      if truthy v then
        if aiCredsOk aiEp aiKey then
          match v with
          | .obj a =>
              some (setKey ip "aiServices"
                (.obj (replaceAiSvc (aiEp.getD "") (aiKey.getD "") a)))
          | _ => none
        else some (setKey ip "aiServices" .null)
      else some ip
  | none => some ip

/-- Whether `blob_params.get("connectionString")` is in `("<REDACTED>", None, "")`. -/
def connStringTrigger (v : Option Json) : Bool :=
  v = some (.str REDACTED_PLACEHOLDER) || v = some .null || v = some (.str "") || v = none

/-- The `azureBlobParameters` processing of the knowledge-source restore. -/
def processBlobParams (ep ky cs bc : String) (aiEp aiKey : Option String)
    (bp : List (String × Json)) : Option (List (String × Json)) :=
  let bp1 := if connStringTrigger (lookupKey bp "connectionString")
             then setKey bp "connectionString" (.str cs) else bp
  let bp2 := if lookupKey bp1 "containerName" = some (.str CONTAINER_PLACEHOLDER)
             then setKey bp1 "containerName" (.str bc) else bp1
  withObjFieldB bp2 "ingestionParameters"
      ["embeddingModel", "chatCompletionModel", "aiServices"]
    (fun ip =>
      match withObjFieldB ip "embeddingModel" ["azureOpenAIParameters"]
          (fun em => withObjFieldA em "azureOpenAIParameters"
            (fun a => some (replaceAOAI ep ky a))) with
      | some ip1 =>
          match withObjFieldB ip1 "chatCompletionModel" ["azureOpenAIParameters"]
              (fun em => withObjFieldA em "azureOpenAIParameters"
                (fun a => some (replaceAOAI ep ky a))) with
          | some ip2 => handleAiServices aiEp aiKey ip2
          | none => none
      | none => none)

/-- The `indexedOneLakeParameters` / `indexedSharePointParameters` processing
of the knowledge-source restore (embedding model only). -/
def processIndexedParams (ep ky : String) (p : List (String × Json)) :
    Option (List (String × Json)) :=
  withObjFieldB p "ingestionParameters" ["embeddingModel"]
    (fun ip => withObjFieldB ip "embeddingModel" ["azureOpenAIParameters"]
      (fun em => withObjFieldA em "azureOpenAIParameters"
        (fun a => some (replaceAOAI ep ky a))))

/-- `replace_placeholders_in_knowledge_source(source_data, openai_endpoint,
openai_key, storage_connection_string, blob_container, ai_services_endpoint,
ai_services_key)`; `none` models a raised exception. -/
def replace_placeholders_in_knowledge_source (ep ky cs bc : String)
    (aiEp aiKey : Option String) : Json → Option Json
  | .obj kvs =>
      match withObjFieldA (dropKey (dropKey kvs "@odata.context") "@odata.etag")
          "azureBlobParameters" (processBlobParams ep ky cs bc aiEp aiKey) with
      | some kvs1 =>
          match withObjFieldB kvs1 "indexedOneLakeParameters" ["ingestionParameters"]
              (processIndexedParams ep ky) with
          | some kvs2 =>
              match withObjFieldB kvs2 "indexedSharePointParameters"
                  ["ingestionParameters"] (processIndexedParams ep ky) with
              | some kvs3 => some (.obj kvs3)
              | none => none
          | none => none
      | none => none
  | _ => none

/-- One element of the `models` array in the knowledge-base restore: a dict is
rewritten through the `azureOpenAIParameters` guard; a string raises only if
the probed key occurs as a substring; a list raises only if it holds the
probed key; anything else raises. -/
def replaceModelEntry (ep ky : String) : Json → Option Json
  | .obj m =>
      match withObjFieldA m "azureOpenAIParameters" (fun a => some (replaceAOAI ep ky a)) with
      | some m2 => some (.obj m2)
      | none => none
  | .str s => if listInfix "azureOpenAIParameters".data s.data then none else some (.str s)
  | .arr xs => if xs.contains (.str "azureOpenAIParameters") then none else some (.arr xs)
  | _ => none

/-- Elementwise processing of `for model in kb_data["models"]`. -/
def replaceModels (ep ky : String) : List Json → Option (List Json)
  | [] => some []
  | m :: ms =>
      match replaceModelEntry ep ky m with
      | some m2 =>
          match replaceModels ep ky ms with
          | some ms2 => some (m2 :: ms2)
          | none => none
      | none => none

/-- The `models` field handling of the knowledge-base restore: a truthy list is
rewritten elementwise; iterating a truthy string yields its one-character
substrings (no probe can hit, so nothing changes); iterating a truthy dict
yields its keys (a hit raises); other truthy values are not iterable. -/
def handleModels (ep ky : String) (kvs : List (String × Json)) :
    Option (List (String × Json)) :=
  match lookupKey kvs "models" with
  | some v =>
      if truthy v then
        match v with
        | .arr xs =>
            match replaceModels ep ky xs with
            | some xs2 => some (setKey kvs "models" (.arr xs2))
            | none => none
        | .str _ => some kvs
        | .obj o =>
            if o.any (fun p => listInfix "azureOpenAIParameters".data p.1.data)
            then none else some kvs
        | _ => none
      else some kvs
  | none => some kvs

/-- The `inferenceParameters` (older schema) handling of the knowledge-base
restore.  The inner access has no truthiness guard, so any non-dict value
under `azureOpenAIParameters` (including `None`) raises. -/
def handleInferenceParams (ep ky : String) (kvs : List (String × Json)) :
    Option (List (String × Json)) :=
  match lookupKey kvs "inferenceParameters" with
  | some (.obj ip) =>
      if ip.isEmpty then some kvs
      else
        match lookupKey ip "azureOpenAIParameters" with
        | some (.obj a) =>
            some (setKey kvs "inferenceParameters"
              (.obj (setKey ip "azureOpenAIParameters" (.obj (replaceAOAI ep ky a)))))
        | some _ => none
        | none => some kvs
  | some v =>
      if truthy v then (if probeCrash ["azureOpenAIParameters"] v then none else some kvs)
      else some kvs
  | none => some kvs

/-- `replace_placeholders_in_knowledge_base(kb_data, openai_endpoint, openai_key)`. -/
def replace_placeholders_in_knowledge_base (ep ky : String) : Json → Option Json
  | .obj kvs =>
      match handleModels ep ky (dropKey (dropKey kvs "@odata.context") "@odata.etag") with
      | some kvs1 =>
          match handleInferenceParams ep ky kvs1 with
          | some kvs2 => some (.obj kvs2)
          | none => none
      | none => none
  | _ => none

/-- A control-plane HTTP response as seen by the deploy calls. -/
structure HttpResponse where
  status : Nat
  body : String
deriving DecidableEq, Repr

/-- `deploy_knowledge_source`: the success verdict and, on failure, the logged
response body (`response.status_code in (200, 201, 204)`). -/
def deploy_knowledge_source (resp : HttpResponse) : Bool × Option String :=
  if resp.status = 200 ∨ resp.status = 201 ∨ resp.status = 204
  then (true, none)
  else (false, some resp.body)

/-- `deploy_knowledge_base`: the same decision rule as for knowledge sources. -/
def deploy_knowledge_base (resp : HttpResponse) : Bool × Option String :=
  if resp.status = 200 ∨ resp.status = 201 ∨ resp.status = 204
  then (true, none)
  else (false, some resp.body)

/-- Read a value at a path of object keys. -/
def getPath : Json → List String → Option Json
  | v, [] => some v
  | .obj kvs, k :: ks =>
      match lookupKey kvs k with
      | some v => getPath v ks
      | none => none
  | _, _ :: _ => none

/-- An optional value that cannot be descended into: it is not a non-empty
object. -/
def notDeep (ov : Option Json) : Prop :=
  ∀ o, ov = some (.obj o) → o = []

mutual
/-- Whether a string value equal to `tok` occurs at any nesting level. -/
def hasValue (tok : String) : Json → Bool
  | .str s => s = tok
  | .arr xs => hasValueArr tok xs
  | .obj kvs => hasValueObj tok kvs
  | _ => false
/-- Occurrence of `tok` in a JSON array. -/
def hasValueArr (tok : String) : List Json → Bool
  | [] => false
  | x :: xs => hasValue tok x || hasValueArr tok xs
/-- Occurrence of `tok` among the values of a JSON object. -/
def hasValueObj (tok : String) : List (String × Json) → Bool
  | [] => false
  | (_, v) :: rest => hasValue tok v || hasValueObj tok rest
end

/-- The indexed knowledge-source kinds (`INDEXED_KINDS`). -/
def INDEXED_KINDS : List String :=
  ["searchIndex", "azureBlob", "indexedOneLake", "indexedSharePoint"]

/-- The remote knowledge-source kinds (`REMOTE_KINDS`). -/
def REMOTE_KINDS : List String := ["remoteSharePoint", "web"]

/-- The result dict of `extract_resources_from_ks`, one field per resource
name, each initialised to `None`. -/
structure KsResources where
  indexName : Json
  indexerName : Json
  dataSourceName : Json
  skillsetName : Json
deriving DecidableEq, Repr

/-- The all-`None` result. -/
def noResources : KsResources := ⟨.null, .null, .null, .null⟩

/-- The `createdResources` extraction shared by the `azureBlob`,
`indexedOneLake` and `indexedSharePoint` branches:
`created = params.get("createdResources", {}) if params else {}` followed by
four `created.get(...)` reads; the reads raise when `createdResources` holds a
non-dict value, and a truthy non-dict parameter block raises at
`params.get`. -/
def extractCreated (ks : List (String × Json)) (blockKey : String) :
    Option KsResources :=
  let params := pyGetD ks blockKey (.obj [])
  if truthy params then
    match params with
    | .obj o =>
        match pyGetD o "createdResources" (.obj []) with
        | .obj c => some ⟨pyGet c "index", pyGet c "indexer",
            pyGet c "datasource", pyGet c "skillset"⟩
        | _ => none
    | _ => none
  else some noResources

/-- `extract_resources_from_ks(ks)`; `none` models a raised exception.  The
`remoteSharePoint`/`web` branch and the unknown-kind branch differ only in
logging and both return the all-`None` result. -/
def extract_resources_from_ks (ks : List (String × Json)) : Option KsResources :=
  let kind := pyGetD ks "kind" (.str "")
  if kind = .str "searchIndex" then
    let params := pyGetD ks "searchIndexParameters" (.obj [])
    if truthy params then
      match params with
      | .obj o => some ⟨pyGet o "searchIndexName", .null, .null, .null⟩
      | _ => none
    else some noResources
  else if kind = .str "azureBlob" then extractCreated ks "azureBlobParameters"
  else if kind = .str "indexedOneLake" then
    extractCreated ks "indexedOneLakeParameters"
  else if kind = .str "indexedSharePoint" then
    extractCreated ks "indexedSharePointParameters"
  else some noResources

/-! ### File-level sanitize and the dry run (`sanitize_file`) -/

mutual
/-- A JSON serializer standing for `json.dumps` in the dry run's equality
comparison of the original and sanitized documents. -/
def dumps : Json → String
  | .null => "null"
  | .bool true => "true"
  | .bool false => "false"
  | .num n => toString n
  | .str s => "\"" ++ s ++ "\""
  | .arr xs => "[" ++ dumpsArr xs ++ "]"
  | .obj kvs => "\x7b" ++ dumpsObj kvs ++ "\x7d"
/-- Serialize array elements, comma-separated. -/
def dumpsArr : List Json → String
  | [] => ""
  | [x] => dumps x
  | x :: y :: rest => dumps x ++ ", " ++ dumpsArr (y :: rest)
/-- Serialize object members, comma-separated. -/
def dumpsObj : List (String × Json) → String
  | [] => ""
  | [(k, v)] => "\"" ++ k ++ "\": " ++ dumps v
  | (k, v) :: p :: rest => "\"" ++ k ++ "\": " ++ dumps v ++ ", " ++ dumpsObj (p :: rest)
end

/-- The top-level dispatch of `sanitize_file`:
`sanitize_dict(data, "") if isinstance(data, dict) else sanitize_list("", data)`.
Iterating a string yields its one-character substrings; numbers, booleans and
`None` are not iterable and raise. -/
def sanitizeTop : Json → Option Json
  | .obj kvs => some (.obj (sanitize_dict kvs ""))
  | .arr xs => some (.arr (sanitize_list "" xs))
  | .str s => some (.arr (sanitize_list "" (s.data.map (fun c => .str ⟨[c]⟩))))
  | _ => none

/-- `sanitize_file` over explicit file state: the input is the parsed file
content (`none` when parsing failed, which is reported as skipped and leaves
the file alone) and the result pairs the returned boolean with the file
content after the call.  The dry run compares the two serializations and
writes nothing; the real run writes the sanitized document and returns
`True`.  The outer `none` models an exception escaping `sanitize_file`. -/
def sanitize_file (content : Option Json) (dryRun : Bool) :
    Option (Bool × Option Json) :=
  match content with
  | none => some (false, none)
  | some d =>
      match sanitizeTop d with
      | none => none
      | some s =>
          if dryRun then some (dumps d != dumps s, some d)
          else some (true, some s)

/-- Resource kinds of the exporter's fetch and dump events. -/
inductive RKind where
  | kb | ks | index | indexer | datasource | skillset | synmap
deriving DecidableEq, Repr

/-- The live search service, abstracted as lookup functions from names to
documents; `none` is a 404 from `http_get`. -/
structure SearchEnv where
  kb : Json → Option Json
  ks : Json → Option Json
  index : Json → Option Json
  indexer : Json → Option Json
  datasource : Json → Option Json
  skillset : Json → Option Json
  synmap : Json → Option Json

/-- The exporter's per-run state: the six dedup sets plus the histories of
fetches and dumped files (most recent first). -/
structure ExpState where
  seenIndexes : List Json
  seenIndexers : List Json
  seenDatasources : List Json
  seenSkillsets : List Json
  seenSynmaps : List Json
  seenKs : List Json
  fetches : List (RKind × Json)
  dumps : List (RKind × Json)
deriving DecidableEq, Repr

/-- The empty starting state of a run. -/
def initExpState : ExpState := ⟨[], [], [], [], [], [], [], []⟩

/-- Python iteration over a JSON value (`for x in v`): lists yield their
elements, strings their one-character substrings, dicts their keys; other
values raise `TypeError`. -/
def pyIter : Json → Option (List Json)
  | .arr xs => some xs
  | .str s => some (s.data.map (fun c => .str ⟨[c]⟩))
  | .obj kvs => some (kvs.map (fun p => .str p.1))
  | _ => none

/-- The synonym-map loop under a dumped index: fetch each truthy unseen name;
a truthy result is dumped; the name enters the dedup set whether or not the
synonym map was found. -/
def processSynmaps (env : SearchEnv) : ExpState → List Json → ExpState
  | st, [] => st
  | st, sm :: rest =>
      processSynmaps env
        (if truthy sm = true ∧ sm ∉ st.seenSynmaps then
          let st1 := { st with fetches := (RKind.synmap, sm) :: st.fetches }
          match env.synmap sm with
          | some syn =>
              if truthy syn then
                { st1 with
                  dumps := (RKind.synmap, sm) :: st1.dumps
                  seenSynmaps := sm :: st1.seenSynmaps }
              else { st1 with seenSynmaps := sm :: st1.seenSynmaps }
          | none => { st1 with seenSynmaps := sm :: st1.seenSynmaps }
        else st) rest

/-- The index step of the resource walk: fetch unless the name is falsy or
seen; a found truthy index is dumped, marked seen and its `synonymMaps` are
walked; a missing or falsy index is only warned about; a truthy non-dict
index raises at `index.get`. -/
def processIndexRes (env : SearchEnv) (st : ExpState) (name : Json) :
    Option ExpState :=
  if truthy name = true ∧ name ∉ st.seenIndexes then
    let st1 := { st with fetches := (RKind.index, name) :: st.fetches }
    match env.index name with
    | some idx =>
        if truthy idx then
          let st2 := { st1 with
            dumps := (RKind.index, name) :: st1.dumps
            seenIndexes := name :: st1.seenIndexes }
          match idx with
          | .obj o =>
              match pyIter (pyGetD o "synonymMaps" (.arr [])) with
              | some sms => some (processSynmaps env st2 sms)
              | none => none
          | _ => none
        else some st1
    | none => some st1
  else some st

/-- The indexer step of the resource walk. -/
def processIndexerRes (env : SearchEnv) (st : ExpState) (name : Json) : ExpState :=
  if truthy name = true ∧ name ∉ st.seenIndexers then
    let st1 := { st with fetches := (RKind.indexer, name) :: st.fetches }
    match env.indexer name with
    | some d =>
        if truthy d then
          { st1 with
            dumps := (RKind.indexer, name) :: st1.dumps
            seenIndexers := name :: st1.seenIndexers }
        else st1
    | none => st1
  else st

/-- The data-source step of the resource walk. -/
def processDatasourceRes (env : SearchEnv) (st : ExpState) (name : Json) : ExpState :=
  if truthy name = true ∧ name ∉ st.seenDatasources then
    let st1 := { st with fetches := (RKind.datasource, name) :: st.fetches }
    match env.datasource name with
    | some d =>
        if truthy d then
          { st1 with
            dumps := (RKind.datasource, name) :: st1.dumps
            seenDatasources := name :: st1.seenDatasources }
        else st1
    | none => st1
  else st

/-- The skillset step of the resource walk. -/
def processSkillsetRes (env : SearchEnv) (st : ExpState) (name : Json) : ExpState :=
  if truthy name = true ∧ name ∉ st.seenSkillsets then
    let st1 := { st with fetches := (RKind.skillset, name) :: st.fetches }
    match env.skillset name with
    | some d =>
        if truthy d then
          { st1 with
            dumps := (RKind.skillset, name) :: st1.dumps
            seenSkillsets := name :: st1.seenSkillsets }
        else st1
    | none => st1
  else st

/-- One `ks_ref` of a knowledge base's `knowledgeSources` array: skip falsy
or already-seen names; fetch; a missing or falsy source is warned about and
skipped without entering the dedup set; otherwise the source is dumped and
marked seen, its dependent resources are resolved and walked.  A non-dict
reference entry, or a truthy non-dict source, raises. -/
def processKSref (env : SearchEnv) (st : ExpState) (ksRef : Json) :
    Option ExpState :=
  match ksRef with
  | .obj r =>
      let ksName := pyGet r "name"
      if truthy ksName = false ∨ ksName ∈ st.seenKs then some st
      else
        let st1 := { st with fetches := (RKind.ks, ksName) :: st.fetches }
        match env.ks ksName with
        | some ksDoc =>
            if truthy ksDoc = false then some st1
            else
              let st2 := { st1 with
                dumps := (RKind.ks, ksName) :: st1.dumps
                seenKs := ksName :: st1.seenKs }
              match ksDoc with
              | .obj ksO =>
                  match extract_resources_from_ks ksO with
                  | some res =>
                      match processIndexRes env st2 res.indexName with
                      | some st3 =>
                          some (processSkillsetRes env
                            (processDatasourceRes env
                              (processIndexerRes env st3 res.indexerName)
                              res.dataSourceName)
                            res.skillsetName)
                      | none => none
                  | none => none
              | _ => none
        | none => some st1
  | _ => none

/-- Left-to-right walk over a knowledge base's reference list. -/
def runKSrefs (env : SearchEnv) (st : ExpState) : List Json → Option ExpState
  | [] => some st
  | r :: rest =>
      match processKSref env st r with
      | some st2 => runKSrefs env st2 rest
      | none => none

/-- One root knowledge-base name: fetch (a missing or falsy base is warned
about and skipped), dump, then walk its `knowledgeSources` references. -/
def processKB (env : SearchEnv) (st : ExpState) (name : String) : Option ExpState :=
  let st1 := { st with fetches := (RKind.kb, .str name) :: st.fetches }
  match env.kb (.str name) with
  | some kbDoc =>
      if truthy kbDoc = false then some st1
      else
        let st2 := { st1 with dumps := (RKind.kb, .str name) :: st1.dumps }
        match kbDoc with
        | .obj o =>
            match pyIter (pyGetD o "knowledgeSources" (.arr [])) with
            | some refs => runKSrefs env st2 refs
            | none => none
        | _ => none
  | none => some st1

/-- The exporter's traversal over the root knowledge-base names, in order. -/
def runExport (env : SearchEnv) : ExpState → List String → Option ExpState
  | st, [] => some st
  | st, n :: rest =>
      match processKB env st n with
      | some st2 => runExport env st2 rest
      | none => none

/-- What the resource steps leave alone: the knowledge-source dedup set and
the knowledge-source fetch/dump counts. -/
def KsSame (st st2 : ExpState) : Prop :=
  st2.seenKs = st.seenKs ∧
  ∀ n : Json,
    st2.fetches.count (RKind.ks, n) = st.fetches.count (RKind.ks, n) ∧
    st2.dumps.count (RKind.ks, n) = st.dumps.count (RKind.ks, n)

/-- The dedup invariant for knowledge sources: a name that exists and is
truthy on the service has been fetched exactly once and dumped exactly once
if it is in the dedup set, and never otherwise. -/
def KsInv (env : SearchEnv) (st : ExpState) : Prop :=
  ∀ n : Json, (∃ d, env.ks n = some d ∧ truthy d = true) →
    st.fetches.count (RKind.ks, n) = (if n ∈ st.seenKs then 1 else 0) ∧
    st.dumps.count (RKind.ks, n) = (if n ∈ st.seenKs then 1 else 0)

def kbDocC1 : Json := .obj [("name", .str "kb1"),
  ("knowledgeSources", .arr [.obj [("name", .str "ks1")]])]

def kbDocC2 : Json := .obj [("name", .str "kb2"),
  ("knowledgeSources", .arr [.obj [("name", .str "ks1")]])]

def ksDocC : Json := .obj [("name", .str "ks1"), ("kind", .str "web")]

/-- A service with two knowledge bases that both reference the same
knowledge source. -/
def envC : SearchEnv :=
  ⟨fun n => if n = .str "kb1" then some kbDocC1
            else if n = .str "kb2" then some kbDocC2 else none,
   fun n => if n = .str "ks1" then some ksDocC else none,
   fun _ => none, fun _ => none, fun _ => none, fun _ => none, fun _ => none⟩

/-- The final state of the export run over `envC`. -/
def stC : ExpState :=
  ⟨[], [], [], [], [], [.str "ks1"],
   [(RKind.kb, .str "kb2"), (RKind.ks, .str "ks1"), (RKind.kb, .str "kb1")],
   [(RKind.kb, .str "kb2"), (RKind.ks, .str "ks1"), (RKind.kb, .str "kb1")]⟩

/-! ### Idempotence of the sanitize transform -/

theorem strLower_data (s : String) : (strLower s).data = s.data.map Char.toLower := rfl

theorem stripSeparators_of_lower (k X : String) (h : strLower k = X) :
    stripSeparators k = ⟨X.data.filter (fun c => !(c = '-' || c = '_'))⟩ := by
  have hd : k.data.map Char.toLower = X.data := by
    have := congrArg String.data h
    simpa [strLower_data] using this
  show String.mk ((k.data.map Char.toLower).filter _) = _
  rw [hd]

theorem should_redact_key_of_name (k : String)
    (h : strLower k = "name" ∨ strLower k = "containername") :
    should_redact_key k = false := by
  rcases h with h | h
  · have hs : stripSeparators k = "name" := by
      rw [stripSeparators_of_lower k "name" h]; decide
    rw [should_redact_key, hs]; decide
  · have hs : stripSeparators k = "containername" := by
      rw [stripSeparators_of_lower k "containername" h]; decide
    rw [should_redact_key, hs]; decide

theorem sanitize_value_str_notUrl (k s : String) (hk : should_redact_key k = false)
    (hu : is_azure_url s = false) : sanitize_value k (.str s) = .str s := by
  by_cases h : should_redact_url_key k <;> simp [sanitize_value, hk, h, hu]

theorem sanitize_value_bool (k : String) (b : Bool) :
    sanitize_value k (.bool b) = .bool b := by
  by_cases hr : should_redact_key k <;> by_cases hu : should_redact_url_key k <;>
    simp [sanitize_value, hr, hu]

theorem sanitize_value_num (k : String) (n : Int) :
    sanitize_value k (.num n) = .num n := by
  by_cases hr : should_redact_key k <;> by_cases hu : should_redact_url_key k <;>
    simp [sanitize_value, hr, hu]

theorem sanitize_value_arr (k : String) (xs : List Json) :
    sanitize_value k (.arr xs) = .arr xs := by
  by_cases hr : should_redact_key k <;> by_cases hu : should_redact_url_key k <;>
    simp [sanitize_value, hr, hu]

theorem sanitize_value_obj (k : String) (kvs : List (String × Json)) :
    sanitize_value k (.obj kvs) = .obj kvs := by
  by_cases hr : should_redact_key k <;> by_cases hu : should_redact_url_key k <;>
    simp [sanitize_value, hr, hu]

theorem sanitize_value_str_cases (k s : String) :
    sanitize_value k (.str s) = .str s ∨
    sanitize_value k (.str s) = .str REDACTED_PLACEHOLDER ∨
    sanitize_value k (.str s) = .str URL_PLACEHOLDER := by
  by_cases hr : should_redact_key k
  · by_cases hs : s ≠ "" ∧ s ≠ "null"
    · right; left; simp [sanitize_value, hr, hs]
    · left; simp [sanitize_value, hr, hs]
  · by_cases hu : should_redact_url_key k
    · by_cases ha : is_azure_url s
      · right; right; simp [sanitize_value, hr, hu, ha]
      · left; simp [sanitize_value, hr, hu, ha]
    · by_cases ha : is_azure_url s
      · right; right; simp [sanitize_value, hr, hu, ha]
      · left; simp [sanitize_value, hr, hu, ha]

theorem sanitize_value_idem (k : String) (v : Json) :
    sanitize_value k (sanitize_value k v) = sanitize_value k v := by
  cases v with
  | null => rfl
  | bool b => rw [sanitize_value_bool, sanitize_value_bool]
  | num n => rw [sanitize_value_num, sanitize_value_num]
  | arr xs => rw [sanitize_value_arr, sanitize_value_arr]
  | obj kvs => rw [sanitize_value_obj, sanitize_value_obj]
  | str s =>
      have hz : is_azure_url URL_PLACEHOLDER = false := by decide
      by_cases hr : should_redact_key k
      · by_cases hs : s ≠ "" ∧ s ≠ "null"
        · simp [sanitize_value, hr, hs]
        · simp [sanitize_value, hr, hs]
      · by_cases hu : should_redact_url_key k <;> by_cases ha : is_azure_url s <;>
          simp [sanitize_value, hr, hu, ha, hz]

theorem containerHit_false_of_contains (key pk s : String)
    (h : LEGACY_CONTAINER_NAMES.contains s = false) :
    isContainerNameHit key pk (.str s) = false := by
  simp only [isContainerNameHit, h]
  simp

theorem containerHit_sanitize_value (key pk : String) (v : Json)
    (h : isContainerNameHit key pk v = false) :
    isContainerNameHit key pk (sanitize_value key v) = false := by
  cases v with
  | null => simpa [sanitize_value] using h
  | bool b => rw [sanitize_value_bool]; exact h
  | num n => rw [sanitize_value_num]; exact h
  | arr xs => rw [sanitize_value_arr]; exact h
  | obj kvs => rw [sanitize_value_obj]; exact h
  | str s =>
      rcases sanitize_value_str_cases key s with hc | hc | hc <;> rw [hc]
      · exact h
      · exact containerHit_false_of_contains key pk _ (by decide)
      · exact containerHit_false_of_contains key pk _ (by decide)

theorem sanitizeEntry_str_no_hit (k pk s : String)
    (hb : isContainerNameHit k pk (.str s) = false) :
    sanitizeEntry k pk (.str s) = sanitize_value k (.str s) := by
  simp [sanitizeEntry, hb]

theorem sanitizeEntry_container (key pk : String)
    (h : strLower key = "name" ∨ strLower key = "containername") :
    sanitizeEntry key pk (.str CONTAINER_PLACEHOLDER) = .str CONTAINER_PLACEHOLDER := by
  have hhit : isContainerNameHit key pk (.str CONTAINER_PLACEHOLDER) = false :=
    containerHit_false_of_contains key pk _ (by decide)
  have hk := should_redact_key_of_name key h
  rw [sanitizeEntry_str_no_hit key pk _ hhit]
  exact sanitize_value_str_notUrl key _ hk (by decide)

mutual
theorem sanitize_dict_idem : ∀ (kvs : List (String × Json)) (pk : String),
    sanitize_dict (sanitize_dict kvs pk) pk = sanitize_dict kvs pk
  | [], _ => rfl
  | (k, v) :: rest, pk => by
      simp only [sanitize_dict]
      rw [sanitizeEntry_idem k pk v, sanitize_dict_idem rest pk]
theorem sanitizeEntry_idem : ∀ (k pk : String) (v : Json),
    sanitizeEntry k pk (sanitizeEntry k pk v) = sanitizeEntry k pk v
  | k, pk, .obj kvs => by
      simp only [sanitizeEntry]
      rw [sanitize_dict_idem kvs k]
  | k, pk, .arr xs => by
      simp only [sanitizeEntry]
      rw [sanitize_list_idem k xs]
  | k, pk, .null => by
      have h : isContainerNameHit k pk .null = false := by simp [isContainerNameHit]
      have e : sanitizeEntry k pk .null = .null := by simp [sanitizeEntry, h, sanitize_value]
      rw [e, e]
  | k, pk, .bool b => by
      have h : isContainerNameHit k pk (.bool b) = false := by simp [isContainerNameHit]
      have e : sanitizeEntry k pk (.bool b) = .bool b := by
        simp [sanitizeEntry, h, sanitize_value_bool]
      rw [e, e]
  | k, pk, .num n => by
      have h : isContainerNameHit k pk (.num n) = false := by simp [isContainerNameHit]
      have e : sanitizeEntry k pk (.num n) = .num n := by
        simp [sanitizeEntry, h, sanitize_value_num]
      rw [e, e]
  | k, pk, .str s => by
      by_cases h : isContainerNameHit k pk (.str s)
      · have hkey : strLower k = "name" ∨ strLower k = "containername" := by
          simp only [isContainerNameHit, Bool.and_eq_true, Bool.or_eq_true,
            decide_eq_true_eq] at h
          exact h.1.1
        have e : sanitizeEntry k pk (.str s) = .str CONTAINER_PLACEHOLDER := by
          simp [sanitizeEntry, h]
        rw [e, sanitizeEntry_container k pk hkey]
      · have hb : isContainerNameHit k pk (.str s) = false := by simpa using h
        have hb2 := containerHit_sanitize_value k pk (.str s) hb
        have hi := sanitize_value_idem k (.str s)
        rw [sanitizeEntry_str_no_hit k pk s hb]
        rcases sanitize_value_str_cases k s with hc | hc | hc
        · rw [hc] at hb2 hi ⊢
          rw [sanitizeEntry_str_no_hit k pk s hb2]
          exact hi
        · rw [hc] at hb2 hi ⊢
          rw [sanitizeEntry_str_no_hit k pk REDACTED_PLACEHOLDER hb2]
          exact hi
        · rw [hc] at hb2 hi ⊢
          rw [sanitizeEntry_str_no_hit k pk URL_PLACEHOLDER hb2]
          exact hi
theorem sanitize_list_idem : ∀ (pk : String) (xs : List Json),
    sanitize_list pk (sanitize_list pk xs) = sanitize_list pk xs
  | _, [] => rfl
  | pk, x :: xs => by
      simp only [sanitize_list]
      rw [sanitizeItem_idem pk x, sanitize_list_idem pk xs]
theorem sanitizeItem_idem : ∀ (pk : String) (x : Json),
    sanitizeItem pk (sanitizeItem pk x) = sanitizeItem pk x
  | pk, .obj kvs => by
      simp only [sanitizeItem]
      rw [sanitize_dict_idem kvs pk]
  | pk, .arr xs => by
      simp only [sanitizeItem]
      rw [sanitize_list_idem pk xs]
  | pk, .null => by
      have e : sanitizeItem pk .null = .null := by simp [sanitizeItem, sanitize_value]
      rw [e, e]
  | pk, .bool b => by
      have e : sanitizeItem pk (.bool b) = .bool b := by
        simp [sanitizeItem, sanitize_value_bool]
      rw [e, e]
  | pk, .num n => by
      have e : sanitizeItem pk (.num n) = .num n := by
        simp [sanitizeItem, sanitize_value_num]
      rw [e, e]
  | pk, .str s => by
      have e : sanitizeItem pk (.str s) = sanitize_value pk (.str s) := by
        simp [sanitizeItem]
      have hi := sanitize_value_idem pk (.str s)
      rw [e]
      rcases sanitize_value_str_cases pk s with hc | hc | hc
      · rw [hc] at hi ⊢
        have e2 : sanitizeItem pk (.str s) = sanitize_value pk (.str s) := by
          simp [sanitizeItem]
        rw [e2]; exact hi
      · rw [hc] at hi ⊢
        have e2 : sanitizeItem pk (.str REDACTED_PLACEHOLDER) =
            sanitize_value pk (.str REDACTED_PLACEHOLDER) := by simp [sanitizeItem]
        rw [e2]; exact hi
      · rw [hc] at hi ⊢
        have e2 : sanitizeItem pk (.str URL_PLACEHOLDER) =
            sanitize_value pk (.str URL_PLACEHOLDER) := by simp [sanitizeItem]
        rw [e2]; exact hi
end

/-- C2: the sanitize transform is idempotent: applying `sanitize_dict` (resp.
`sanitize_list`) to its own output, with the same parent key, returns that
output unchanged, for every document and every parent key. -/
theorem sanitize_idempotent :
    (∀ (kvs : List (String × Json)) (pk : String),
       sanitize_dict (sanitize_dict kvs pk) pk = sanitize_dict kvs pk) ∧
    (∀ (pk : String) (xs : List Json),
       sanitize_list pk (sanitize_list pk xs) = sanitize_list pk xs) :=
  ⟨sanitize_dict_idem, sanitize_list_idem⟩

/-! ### Secret-key redaction (claim C8) -/

theorem containerHit_false_of_redact (key pk : String) (v : Json)
    (hk : should_redact_key key = true) : isContainerNameHit key pk v = false := by
  by_cases h1 : strLower key = "name" ∨ strLower key = "containername"
  · rw [should_redact_key_of_name key h1] at hk
    cases hk
  · rw [not_or] at h1
    simp [isContainerNameHit, h1.1, h1.2]

/-- C8: whenever a key matches the fixed secret-indicating names under the
case- and separator-insensitive comparison (`should_redact_key`) and its value
is a non-empty string other than `"null"`, both `sanitize_value` and the
`sanitize_dict` walk replace the value by the secret placeholder `<REDACTED>`;
in particular `{"apiKey": "abc123"}` sanitizes to `{"apiKey": "<REDACTED>"}`. -/
theorem sensitive_key_redacted (key s pk : String) (rest : List (String × Json))
    (hk : should_redact_key key = true) (hne : s ≠ "") (hnull : s ≠ "null") :
    sanitize_value key (.str s) = .str REDACTED_PLACEHOLDER ∧
    sanitize_dict ((key, .str s) :: rest) pk =
      (key, .str REDACTED_PLACEHOLDER) :: sanitize_dict rest pk ∧
    sanitize_dict [("apiKey", .str "abc123")] "" = [("apiKey", .str "<REDACTED>")] := by
  have hv : sanitize_value key (.str s) = .str REDACTED_PLACEHOLDER := by
    simp [sanitize_value, hk, hne, hnull]
  refine ⟨hv, ?_, by decide⟩
  have hhit := containerHit_false_of_redact key pk (.str s) hk
  simp only [sanitize_dict]
  rw [sanitizeEntry_str_no_hit key pk s hhit, hv]

/-- Witness for `sensitive_key_redacted` at key `"apiKey"`, value `"abc123"`. -/
theorem sensitive_key_redacted_witness :
    should_redact_key "apiKey" = true ∧
    (sanitize_value "apiKey" (.str "abc123") = .str REDACTED_PLACEHOLDER ∧
     sanitize_dict [("apiKey", .str "abc123")] "" =
       [("apiKey", .str REDACTED_PLACEHOLDER)] ∧
     sanitize_dict [("apiKey", .str "abc123")] "" = [("apiKey", .str "<REDACTED>")]) := by
  refine ⟨by decide, ?_⟩
  have h := sensitive_key_redacted "apiKey" "abc123" "" []
    (by decide) (by decide) (by decide)
  simpa using h

/-! ### Restorer (`src/infra/hooks/configure_search_objects.py`) -/

/-! ### Lookup lemmas for the association-list primitives -/

theorem lookupKey_nil (k : String) : lookupKey [] k = none := rfl

theorem lookupKey_cons (p : String × Json) (rest : List (String × Json)) (k : String) :
    lookupKey (p :: rest) k = if p.1 = k then some p.2 else lookupKey rest k := by
  by_cases h : p.1 = k <;> simp [lookupKey, List.find?_cons, h]

theorem dropKey_cons (p : String × Json) (rest : List (String × Json)) (k : String) :
    dropKey (p :: rest) k =
      if p.1 = k then dropKey rest k else p :: dropKey rest k := by
  by_cases h : p.1 = k <;> simp [dropKey, List.filter_cons, h]

theorem lookupKey_dropKey (kvs : List (String × Json)) (k k2 : String) :
    lookupKey (dropKey kvs k) k2 = if k2 = k then none else lookupKey kvs k2 := by
  induction kvs with
  | nil => by_cases h : k2 = k <;> simp [dropKey, lookupKey_nil, h]
  | cons p rest ih =>
      rw [dropKey_cons]
      by_cases hp : p.1 = k
      · rw [if_pos hp, ih, lookupKey_cons]
        by_cases h2 : k2 = k
        · simp [h2]
        · have : ¬ (p.1 = k2) := by rw [hp]; exact fun hh => h2 hh.symm
          simp [h2, this]
      · rw [if_neg hp, lookupKey_cons, ih, lookupKey_cons]
        by_cases hpk : p.1 = k2
        · have : ¬ (k2 = k) := by rw [← hpk]; exact hp
          simp [hpk, this]
        · simp [hpk]

theorem lookupKey_setKey_same (kvs : List (String × Json)) (k : String) (v : Json) :
    lookupKey (setKey kvs k v) k = some v := by
  induction kvs with
  | nil => simp [setKey, lookupKey_cons]
  | cons p rest ih =>
      by_cases hp : p.1 = k
      · simp [setKey, hp, lookupKey_cons]
      · rw [setKey, if_neg hp, lookupKey_cons, if_neg hp]
        exact ih

theorem lookupKey_setKey_ne (kvs : List (String × Json)) (k k2 : String) (v : Json)
    (h : k2 ≠ k) :
    lookupKey (setKey kvs k v) k2 = lookupKey kvs k2 := by
  induction kvs with
  | nil =>
      have : ¬ (k = k2) := fun hh => h hh.symm
      simp [setKey, lookupKey_cons, this, lookupKey_nil]
  | cons p rest ih =>
      by_cases hp : p.1 = k
      · have hk2 : ¬ (k = k2) := fun hh => h hh.symm
        have hp2 : ¬ (p.1 = k2) := by rw [hp]; exact hk2
        rw [setKey, if_pos hp, lookupKey_cons, lookupKey_cons]
        simp only [hk2, if_false, hp2]
      · rw [setKey, if_neg hp, lookupKey_cons, lookupKey_cons, ih]

/-! ### Path access and inversion of the restore guards -/

theorem getPath_obj_cons (kvs : List (String × Json)) (k : String) (ks : List String) :
    getPath (.obj kvs) (k :: ks) =
      match lookupKey kvs k with
      | some v => getPath v ks
      | none => none := rfl

theorem getPath_lookup (kvs : List (String × Json)) (k : String) (ks : List String)
    (v : Json) (h : lookupKey kvs k = some v) :
    getPath (.obj kvs) (k :: ks) = getPath v ks := by
  rw [getPath_obj_cons, h]

theorem getPath_none_of_notDeep (kvs : List (String × Json)) (k k2 : String)
    (ks : List String) (h : notDeep (lookupKey kvs k)) :
    getPath (.obj kvs) (k :: k2 :: ks) = none := by
  rw [getPath_obj_cons]
  cases hv : lookupKey kvs k with
  | none => rfl
  | some v =>
      cases v with
      | obj o =>
          have : o = [] := h o hv
          subst this
          simp [getPath, lookupKey_nil]
      | null => rfl
      | bool b => rfl
      | num n => rfl
      | str s => rfl
      | arr xs => rfl

theorem withObjFieldA_some (kvs kvs2 : List (String × Json)) (k : String)
    (f : List (String × Json) → Option (List (String × Json)))
    (h : withObjFieldA kvs k f = some kvs2) :
    (kvs2 = kvs ∧ notDeep (lookupKey kvs k)) ∨
    (∃ o o2, lookupKey kvs k = some (.obj o) ∧ o ≠ [] ∧ f o = some o2 ∧
       kvs2 = setKey kvs k (.obj o2)) := by
  unfold withObjFieldA at h
  cases hv : lookupKey kvs k with
  | none =>
      rw [hv] at h
      left
      exact ⟨(Option.some.inj h).symm, fun o ho => by cases ho⟩
  | some v =>
      rw [hv] at h
      cases v with
      | obj o =>
          by_cases ho : o.isEmpty
          · simp only [ho, if_true] at h
            left
            refine ⟨(Option.some.inj h).symm, fun o2 ho2 => ?_⟩
            have : Json.obj o = Json.obj o2 := Option.some.inj ho2
            cases this
            exact List.isEmpty_iff.mp ho
          · simp only [ho, if_false] at h
            cases hf : f o with
            | none => rw [hf] at h; cases h
            | some o2 =>
                rw [hf] at h
                right
                exact ⟨o, o2, rfl, fun he => (by simp [he] at ho), hf,
                  (Option.some.inj h).symm⟩
      | null => left; exact ⟨(Option.some.inj (by simpa [truthy] using h)).symm,
          fun o ho => by cases ho⟩
      | bool b =>
          cases b with
          | false => left; exact ⟨(Option.some.inj (by simpa [truthy] using h)).symm,
              fun o ho => by cases ho⟩
          | true => simp [truthy] at h
      | num n =>
          by_cases hn : n = 0
          · subst hn
            left
            exact ⟨(Option.some.inj (by simpa [truthy] using h)).symm,
              fun o ho => by cases ho⟩
          · simp [truthy, hn] at h
      | str s =>
          by_cases hs : s = ""
          · subst hs
            left
            exact ⟨(Option.some.inj (by simpa [truthy] using h)).symm,
              fun o ho => by cases ho⟩
          · simp [truthy, hs] at h
      | arr xs =>
          cases xs with
          | nil => left; exact ⟨(Option.some.inj (by simpa [truthy] using h)).symm,
              fun o ho => by cases ho⟩
          | cons x xs => simp [truthy] at h

theorem withObjFieldB_some (kvs kvs2 : List (String × Json)) (k : String)
    (probes : List String)
    (f : List (String × Json) → Option (List (String × Json)))
    (h : withObjFieldB kvs k probes f = some kvs2) :
    (kvs2 = kvs ∧ notDeep (lookupKey kvs k)) ∨
    (∃ o o2, lookupKey kvs k = some (.obj o) ∧ o ≠ [] ∧ f o = some o2 ∧
       kvs2 = setKey kvs k (.obj o2)) := by
  unfold withObjFieldB at h
  cases hv : lookupKey kvs k with
  | none =>
      rw [hv] at h
      left
      exact ⟨(Option.some.inj h).symm, fun o ho => by cases ho⟩
  | some v =>
      rw [hv] at h
      cases v with
      | obj o =>
          by_cases ho : o.isEmpty
          · simp only [ho, if_true] at h
            left
            refine ⟨(Option.some.inj h).symm, fun o2 ho2 => ?_⟩
            have : Json.obj o = Json.obj o2 := Option.some.inj ho2
            cases this
            exact List.isEmpty_iff.mp ho
          · simp only [ho, if_false] at h
            cases hf : f o with
            | none => rw [hf] at h; cases h
            | some o2 =>
                rw [hf] at h
                right
                exact ⟨o, o2, rfl, fun he => (by simp [he] at ho), hf,
                  (Option.some.inj h).symm⟩
      | null => left; exact ⟨(Option.some.inj (by simpa [truthy] using h)).symm,
          fun o ho => by cases ho⟩
      | bool b =>
          refine Or.inl ⟨?_, fun o ho => by cases ho⟩
          cases b with
          | false => exact (Option.some.inj (by simpa [truthy] using h)).symm
          | true =>
              simp only [truthy, if_true] at h
              by_cases hc : probeCrash probes (.bool true)
              · rw [if_pos hc] at h; cases h
              · rw [if_neg hc] at h; exact (Option.some.inj h).symm
      | num n =>
          refine Or.inl ⟨?_, fun o ho => by cases ho⟩
          by_cases hn : n = 0
          · subst hn
            exact (Option.some.inj (by simpa [truthy] using h)).symm
          · simp only [truthy] at h
            rw [if_pos (by simpa using hn)] at h
            by_cases hc : probeCrash probes (.num n)
            · rw [if_pos hc] at h; cases h
            · rw [if_neg hc] at h; exact (Option.some.inj h).symm
      | str s =>
          refine Or.inl ⟨?_, fun o ho => by cases ho⟩
          by_cases hs : s = ""
          · subst hs
            exact (Option.some.inj (by simpa [truthy] using h)).symm
          · simp only [truthy] at h
            rw [if_pos (by simpa using hs)] at h
            by_cases hc : probeCrash probes (.str s)
            · rw [if_pos hc] at h; cases h
            · rw [if_neg hc] at h; exact (Option.some.inj h).symm
      | arr xs =>
          refine Or.inl ⟨?_, fun o ho => by cases ho⟩
          cases xs with
          | nil => exact (Option.some.inj (by simpa [truthy] using h)).symm
          | cons x rest =>
              simp only [truthy, List.isEmpty_cons, Bool.not_false, if_true] at h
              by_cases hc : probeCrash probes (.arr (x :: rest))
              · rw [if_pos hc] at h; cases h
              · rw [if_neg hc] at h; exact (Option.some.inj h).symm

theorem withObjFieldA_frame (kvs kvs2 : List (String × Json)) (k k2 : String)
    (f : List (String × Json) → Option (List (String × Json)))
    (h : withObjFieldA kvs k f = some kvs2) (hne : k2 ≠ k) :
    lookupKey kvs2 k2 = lookupKey kvs k2 := by
  rcases withObjFieldA_some kvs kvs2 k f h with ⟨he, _⟩ | ⟨o, o2, _, _, _, he⟩
  · rw [he]
  · rw [he, lookupKey_setKey_ne _ _ _ _ hne]

theorem withObjFieldB_frame (kvs kvs2 : List (String × Json)) (k k2 : String)
    (probes : List String)
    (f : List (String × Json) → Option (List (String × Json)))
    (h : withObjFieldB kvs k probes f = some kvs2) (hne : k2 ≠ k) :
    lookupKey kvs2 k2 = lookupKey kvs k2 := by
  rcases withObjFieldB_some kvs kvs2 k probes f h with ⟨he, _⟩ | ⟨o, o2, _, _, _, he⟩
  · rw [he]
  · rw [he, lookupKey_setKey_ne _ _ _ _ hne]

theorem withObjFieldA_enter (kvs kvs2 o : List (String × Json)) (k : String)
    (f : List (String × Json) → Option (List (String × Json)))
    (h : withObjFieldA kvs k f = some kvs2)
    (ho : lookupKey kvs k = some (.obj o)) (hne : o ≠ []) :
    ∃ o2, f o = some o2 ∧ kvs2 = setKey kvs k (.obj o2) := by
  rcases withObjFieldA_some kvs kvs2 k f h with ⟨_, hd⟩ | ⟨o1, o2, ho1, _, hf, he⟩
  · exact absurd (hd o ho) hne
  · rw [ho] at ho1
    have : Json.obj o = Json.obj o1 := Option.some.inj ho1
    cases this
    exact ⟨o2, hf, he⟩

theorem withObjFieldB_enter (kvs kvs2 o : List (String × Json)) (k : String)
    (probes : List String)
    (f : List (String × Json) → Option (List (String × Json)))
    (h : withObjFieldB kvs k probes f = some kvs2)
    (ho : lookupKey kvs k = some (.obj o)) (hne : o ≠ []) :
    ∃ o2, f o = some o2 ∧ kvs2 = setKey kvs k (.obj o2) := by
  rcases withObjFieldB_some kvs kvs2 k probes f h with ⟨_, hd⟩ | ⟨o1, o2, ho1, _, hf, he⟩
  · exact absurd (hd o ho) hne
  · rw [ho] at ho1
    have : Json.obj o = Json.obj o1 := Option.some.inj ho1
    cases this
    exact ⟨o2, hf, he⟩

theorem replaceKS_some_inv (ep ky cs bc : String) (aiEp aiKey : Option String)
    (kvs : List (String × Json)) (d2 : Json)
    (h : replace_placeholders_in_knowledge_source ep ky cs bc aiEp aiKey (.obj kvs) =
      some d2) :
    ∃ kvs1 kvs2 kvs3,
      withObjFieldA (dropKey (dropKey kvs "@odata.context") "@odata.etag")
        "azureBlobParameters" (processBlobParams ep ky cs bc aiEp aiKey) = some kvs1 ∧
      withObjFieldB kvs1 "indexedOneLakeParameters" ["ingestionParameters"]
        (processIndexedParams ep ky) = some kvs2 ∧
      withObjFieldB kvs2 "indexedSharePointParameters" ["ingestionParameters"]
        (processIndexedParams ep ky) = some kvs3 ∧
      d2 = .obj kvs3 := by
  simp only [replace_placeholders_in_knowledge_source] at h
  cases h1 : withObjFieldA (dropKey (dropKey kvs "@odata.context") "@odata.etag")
      "azureBlobParameters" (processBlobParams ep ky cs bc aiEp aiKey) with
  | none => rw [h1] at h; exact Option.noConfusion h
  | some kvs1 =>
      rw [h1] at h
      dsimp only at h
      cases h2 : withObjFieldB kvs1 "indexedOneLakeParameters" ["ingestionParameters"]
          (processIndexedParams ep ky) with
      | none => rw [h2] at h; exact Option.noConfusion h
      | some kvs2 =>
          rw [h2] at h
          dsimp only at h
          cases h3 : withObjFieldB kvs2 "indexedSharePointParameters"
              ["ingestionParameters"] (processIndexedParams ep ky) with
          | none => rw [h3] at h; exact Option.noConfusion h
          | some kvs3 =>
              rw [h3] at h
              exact ⟨kvs1, kvs2, kvs3, rfl, h2, h3, (Option.some.inj h).symm⟩

theorem replaceKB_some_inv (ep ky : String) (kvs : List (String × Json)) (d2 : Json)
    (h : replace_placeholders_in_knowledge_base ep ky (.obj kvs) = some d2) :
    ∃ kvs1 kvs2,
      handleModels ep ky (dropKey (dropKey kvs "@odata.context") "@odata.etag") =
        some kvs1 ∧
      handleInferenceParams ep ky kvs1 = some kvs2 ∧
      d2 = .obj kvs2 := by
  simp only [replace_placeholders_in_knowledge_base] at h
  cases h1 : handleModels ep ky (dropKey (dropKey kvs "@odata.context") "@odata.etag") with
  | none => rw [h1] at h; exact Option.noConfusion h
  | some kvs1 =>
      rw [h1] at h
      dsimp only at h
      cases h2 : handleInferenceParams ep ky kvs1 with
      | none => rw [h2] at h; exact Option.noConfusion h
      | some kvs2 =>
          rw [h2] at h
          exact ⟨kvs1, kvs2, rfl, h2, (Option.some.inj h).symm⟩

theorem handleModels_frame (ep ky : String) (kvs kvs2 : List (String × Json)) (k2 : String)
    (h : handleModels ep ky kvs = some kvs2) (hne : k2 ≠ "models") :
    lookupKey kvs2 k2 = lookupKey kvs k2 := by
  unfold handleModels at h
  repeat' split at h
  all_goals first
    | exact Option.noConfusion h
    | (rw [← Option.some.inj h]; try exact lookupKey_setKey_ne _ _ _ _ hne)

theorem handleInferenceParams_frame (ep ky : String) (kvs kvs2 : List (String × Json))
    (k2 : String) (h : handleInferenceParams ep ky kvs = some kvs2)
    (hne : k2 ≠ "inferenceParameters") :
    lookupKey kvs2 k2 = lookupKey kvs k2 := by
  unfold handleInferenceParams at h
  repeat' split at h
  all_goals first
    | exact Option.noConfusion h
    | (rw [← Option.some.inj h]; try exact lookupKey_setKey_ne _ _ _ _ hne)

theorem sanitize_dict_keys (kvs : List (String × Json)) (pk : String) :
    (sanitize_dict kvs pk).map Prod.fst = kvs.map Prod.fst := by
  induction kvs with
  | nil => rfl
  | cons p rest ih =>
      cases p with
      | mk k v => simp [sanitize_dict, ih]

/-- C5 counterexample: the Sanitizer does not drop the protocol metadata keys.
Sanitizing a document holding `@odata.etag` and (a non-URL) `@odata.context`
keeps both keys, so the sanitized output still contains them. -/
theorem sanitizer_keeps_odata_keys :
    sanitize_dict [("@odata.etag", .str "W/123"), ("@odata.context", .str "ctx")] "" =
      [("@odata.etag", .str "W/123"), ("@odata.context", .str "ctx")] ∧
    lookupKey (sanitize_dict [("@odata.etag", .str "W/123"),
        ("@odata.context", .str "ctx")] "") "@odata.etag" = some (.str "W/123") ∧
    lookupKey (sanitize_dict [("@odata.etag", .str "W/123"),
        ("@odata.context", .str "ctx")] "") "@odata.context" = some (.str "ctx") := by
  decide

/-- C5 (amended): the Sanitizer drops no keys at all — `sanitize_dict`
preserves the key list of every object, so the two protocol metadata keys
survive sanitization; it is the Restorer that removes `@odata.context` and
`@odata.etag`, and only at the top level of the restored document, in both
the knowledge-source and the knowledge-base restore. -/
theorem odata_dropped_by_restorer_not_sanitizer :
    (∀ (kvs : List (String × Json)) (pk : String),
       (sanitize_dict kvs pk).map Prod.fst = kvs.map Prod.fst) ∧
    (∀ (ep ky cs bc : String) (aiEp aiKey : Option String) (d : Json)
       (kvs2 : List (String × Json)),
       replace_placeholders_in_knowledge_source ep ky cs bc aiEp aiKey d =
         some (.obj kvs2) →
       lookupKey kvs2 "@odata.context" = none ∧ lookupKey kvs2 "@odata.etag" = none) ∧
    (∀ (ep ky : String) (d : Json) (kvs2 : List (String × Json)),
       replace_placeholders_in_knowledge_base ep ky d = some (.obj kvs2) →
       lookupKey kvs2 "@odata.context" = none ∧ lookupKey kvs2 "@odata.etag" = none) := by
  refine ⟨sanitize_dict_keys, ?_, ?_⟩
  · intro ep ky cs bc aiEp aiKey d kvs2 h
    cases d with
    | obj kvs =>
        obtain ⟨k1, k2x, k3, h1, h2, h3, he⟩ :=
          replaceKS_some_inv ep ky cs bc aiEp aiKey kvs _ h
        have hk : kvs2 = k3 := by
          have := he
          injection this
        subst hk
        constructor
        · rw [withObjFieldB_frame _ _ _ _ _ _ h3 (by decide),
            withObjFieldB_frame _ _ _ _ _ _ h2 (by decide),
            withObjFieldA_frame _ _ _ _ _ h1 (by decide),
            lookupKey_dropKey, lookupKey_dropKey]
          simp
        · rw [withObjFieldB_frame _ _ _ _ _ _ h3 (by decide),
            withObjFieldB_frame _ _ _ _ _ _ h2 (by decide),
            withObjFieldA_frame _ _ _ _ _ h1 (by decide),
            lookupKey_dropKey]
          simp
    | null => exact Option.noConfusion h
    | bool b => exact Option.noConfusion h
    | num n => exact Option.noConfusion h
    | str s => exact Option.noConfusion h
    | arr xs => exact Option.noConfusion h
  · intro ep ky d kvs2 h
    cases d with
    | obj kvs =>
        obtain ⟨k1, k2x, h1, h2, he⟩ := replaceKB_some_inv ep ky kvs _ h
        have hk : kvs2 = k2x := by injection he
        subst hk
        constructor
        · rw [handleInferenceParams_frame _ _ _ _ _ h2 (by decide),
            handleModels_frame _ _ _ _ _ h1 (by decide),
            lookupKey_dropKey, lookupKey_dropKey]
          simp
        · rw [handleInferenceParams_frame _ _ _ _ _ h2 (by decide),
            handleModels_frame _ _ _ _ _ h1 (by decide),
            lookupKey_dropKey]
          simp
    | null => exact Option.noConfusion h
    | bool b => exact Option.noConfusion h
    | num n => exact Option.noConfusion h
    | str s => exact Option.noConfusion h
    | arr xs => exact Option.noConfusion h

/-- Witness for `odata_dropped_by_restorer_not_sanitizer`: restoring a concrete
document holding both metadata keys leaves neither at top level. -/
theorem odata_dropped_witness :
    replace_placeholders_in_knowledge_source "E" "K" "C" "B" none none
      (.obj [("@odata.etag", .str "W/1"), ("@odata.context", .str "ctx"),
             ("name", .str "ks")]) = some (.obj [("name", .str "ks")]) ∧
    (lookupKey [("name", Json.str "ks")] "@odata.context" = none ∧
     lookupKey [("name", Json.str "ks")] "@odata.etag" = none) :=
  ⟨by decide,
   odata_dropped_by_restorer_not_sanitizer.2.1 "E" "K" "C" "B" none none
     (.obj [("@odata.etag", .str "W/1"), ("@odata.context", .str "ctx"),
            ("name", .str "ks")]) [("name", Json.str "ks")] (by decide)⟩

/-- C6 counterexample: status 202 lies in the 2xx range yet both deploy calls
report failure (carrying the body), so success is not "any 2xx response". -/
theorem deploy_2xx_refuted :
    (200 ≤ 202 ∧ 202 < 300) ∧
    deploy_knowledge_source ⟨202, "err-body"⟩ = (false, some "err-body") ∧
    deploy_knowledge_base ⟨202, "err-body"⟩ = (false, some "err-body") := by
  exact ⟨⟨by norm_num, by norm_num⟩, by decide, by decide⟩

/-- C6 (amended): a deploy call reports success exactly when the response
status is 200, 201 or 204, and on any other status it reports an error
carrying the response body. -/
theorem deploy_success_iff (resp : HttpResponse) :
    ((deploy_knowledge_source resp).1 = true ↔
       (resp.status = 200 ∨ resp.status = 201 ∨ resp.status = 204)) ∧
    ((deploy_knowledge_base resp).1 = true ↔
       (resp.status = 200 ∨ resp.status = 201 ∨ resp.status = 204)) ∧
    (deploy_knowledge_source resp = (true, none) ∨
       deploy_knowledge_source resp = (false, some resp.body)) ∧
    (deploy_knowledge_base resp = (true, none) ∨
       deploy_knowledge_base resp = (false, some resp.body)) := by
  unfold deploy_knowledge_source deploy_knowledge_base
  by_cases h : resp.status = 200 ∨ resp.status = 201 ∨ resp.status = 204 <;>
    simp [h]

/-! ### The aiServices fallback (claim C4) -/

theorem lookupKey_ne_nil (kvs : List (String × Json)) (k : String) (v : Json)
    (h : lookupKey kvs k = some v) : kvs ≠ [] := by
  intro he
  subst he
  cases h

theorem aiCredsOk_false_of_none (aiEp aiKey : Option String)
    (h : aiEp = none ∨ aiKey = none) : aiCredsOk aiEp aiKey = false := by
  rcases h with h | h
  · subst h; cases aiKey <;> rfl
  · subst h; cases aiEp <;> rfl

theorem handleAiServices_no_creds (aiEp aiKey : Option String)
    (ip : List (String × Json)) (v : Json)
    (hv : lookupKey ip "aiServices" = some v) (ht : truthy v = true)
    (hok : aiCredsOk aiEp aiKey = false) :
    handleAiServices aiEp aiKey ip = some (setKey ip "aiServices" .null) := by
  unfold handleAiServices
  rw [hv]
  dsimp only
  rw [if_pos ht, if_neg (by rw [hok]; exact Bool.false_ne_true)]

theorem lookupKey_ite_setKey_ne (c : Prop) [Decidable c] (kvs : List (String × Json))
    (k k2 : String) (v : Json) (h : k2 ≠ k) :
    lookupKey (if c then setKey kvs k v else kvs) k2 = lookupKey kvs k2 := by
  by_cases hc : c
  · rw [if_pos hc, lookupKey_setKey_ne _ _ _ _ h]
  · rw [if_neg hc]

/-- C4 counterexample: restoring a blob source holding an `aiServices`
capability block with no AI-services credential does not remove the key: the
restored document still holds `"aiServices"`, bound to `null`. -/
theorem ai_services_entry_not_removed :
    replace_placeholders_in_knowledge_source "EP" "KY" "CS" "BC" none none
      (.obj [("azureBlobParameters", .obj
        [("ingestionParameters", .obj
           [("aiServices", .obj [("uri", .str "<AZURE_ENDPOINT_PLACEHOLDER>")])])])]) =
    some (.obj [("azureBlobParameters", .obj
        [("ingestionParameters", .obj [("aiServices", Json.null)]),
         ("connectionString", .str "CS")])]) ∧
    getPath (.obj [("azureBlobParameters", .obj
        [("ingestionParameters", .obj [("aiServices", Json.null)]),
         ("connectionString", .str "CS")])])
      ["azureBlobParameters", "ingestionParameters", "aiServices"] =
      some Json.null := by
  exact ⟨by decide, by decide⟩

/-- C4 (amended): restoring a document whose blob-source ingestion parameters
contain a (truthy) `aiServices` capability block, when the AI-services
endpoint or key is `None`, yields a document in which the `aiServices` entry
is still present but bound to `null` — the block's contents are removed, the
key itself is not. -/
theorem ai_services_nulled_without_creds (ep ky cs bc : String)
    (aiEp aiKey : Option String) (kvs bp ip : List (String × Json))
    (v d2 : Json)
    (hAi : aiEp = none ∨ aiKey = none)
    (hbp : lookupKey kvs "azureBlobParameters" = some (.obj bp))
    (hip : lookupKey bp "ingestionParameters" = some (.obj ip))
    (hsvc : lookupKey ip "aiServices" = some v) (htv : truthy v = true)
    (h : replace_placeholders_in_knowledge_source ep ky cs bc aiEp aiKey (.obj kvs) =
      some d2) :
    getPath d2 ["azureBlobParameters", "ingestionParameters", "aiServices"] =
      some Json.null := by
  obtain ⟨kvs1, kvs2x, kvs3, h1, h2, h3, hd⟩ :=
    replaceKS_some_inv ep ky cs bc aiEp aiKey kvs d2 h
  have hbp0 : lookupKey (dropKey (dropKey kvs "@odata.context") "@odata.etag")
      "azureBlobParameters" = some (.obj bp) := by
    rw [lookupKey_dropKey, if_neg (by decide), lookupKey_dropKey, if_neg (by decide)]
    exact hbp
  obtain ⟨bp', hpb, hk1⟩ := withObjFieldA_enter _ _ _ _ _ h1 hbp0
    (lookupKey_ne_nil bp "ingestionParameters" _ hip)
  unfold processBlobParams at hpb
  set bp1 := if connStringTrigger (lookupKey bp "connectionString")
             then setKey bp "connectionString" (.str cs) else bp with hbp1
  set bp2 := if lookupKey bp1 "containerName" = some (.str CONTAINER_PLACEHOLDER)
             then setKey bp1 "containerName" (.str bc) else bp1 with hbp2
  have hip2 : lookupKey bp2 "ingestionParameters" = some (.obj ip) := by
    rw [hbp2, lookupKey_ite_setKey_ne _ _ _ _ _ (by decide),
      hbp1, lookupKey_ite_setKey_ne _ _ _ _ _ (by decide)]
    exact hip
  obtain ⟨ip3, hf, hbpe⟩ := withObjFieldB_enter _ _ _ _ _ _ hpb hip2
    (lookupKey_ne_nil ip "aiServices" _ hsvc)
  try dsimp only at hf
  cases hem : withObjFieldB ip "embeddingModel" ["azureOpenAIParameters"]
      (fun em => withObjFieldA em "azureOpenAIParameters"
        (fun a => some (replaceAOAI ep ky a))) with
  | none => rw [hem] at hf; exact Option.noConfusion hf
  | some ip1 =>
      rw [hem] at hf
      dsimp only at hf
      cases hch : withObjFieldB ip1 "chatCompletionModel" ["azureOpenAIParameters"]
          (fun em => withObjFieldA em "azureOpenAIParameters"
            (fun a => some (replaceAOAI ep ky a))) with
      | none => rw [hch] at hf; exact Option.noConfusion hf
      | some ip2 =>
          rw [hch] at hf
          dsimp only at hf
          have hsvc2 : lookupKey ip2 "aiServices" = some v := by
            rw [withObjFieldB_frame _ _ _ _ _ _ hch (by decide),
              withObjFieldB_frame _ _ _ _ _ _ hem (by decide)]
            exact hsvc
          rw [handleAiServices_no_creds aiEp aiKey ip2 v hsvc2 htv
            (aiCredsOk_false_of_none aiEp aiKey hAi)] at hf
          have hip3 : ip3 = setKey ip2 "aiServices" .null := (Option.some.inj hf).symm
          subst hd
          have hblob3 : lookupKey kvs3 "azureBlobParameters" = some (.obj bp') := by
            rw [withObjFieldB_frame _ _ _ _ _ _ h3 (by decide),
              withObjFieldB_frame _ _ _ _ _ _ h2 (by decide), hk1,
              lookupKey_setKey_same]
          have hipf : lookupKey bp' "ingestionParameters" = some (.obj ip3) := by
            rw [hbpe, lookupKey_setKey_same]
          rw [getPath_lookup _ _ _ _ hblob3, getPath_lookup _ _ _ _ hipf,
            getPath_lookup _ _ _ _ (show lookupKey ip3 "aiServices" = some Json.null by
              rw [hip3, lookupKey_setKey_same])]
          rfl

/-- Witness for `ai_services_nulled_without_creds` on a concrete document. -/
theorem ai_services_nulled_witness :
    (replace_placeholders_in_knowledge_source "EP" "KY" "CS" "BC" none none
      (.obj [("azureBlobParameters", .obj
        [("ingestionParameters", .obj
           [("aiServices", .obj [("x", .str "y")])])])]) =
      some (.obj [("azureBlobParameters", .obj
        [("ingestionParameters", .obj [("aiServices", Json.null)]),
         ("connectionString", .str "CS")])])) ∧
    getPath (.obj [("azureBlobParameters", .obj
        [("ingestionParameters", .obj [("aiServices", Json.null)]),
         ("connectionString", .str "CS")])])
      ["azureBlobParameters", "ingestionParameters", "aiServices"] =
      some Json.null :=
  ⟨by decide,
   ai_services_nulled_without_creds "EP" "KY" "CS" "BC" none none
     [("azureBlobParameters", .obj
        [("ingestionParameters", .obj [("aiServices", .obj [("x", .str "y")])])])]
     [("ingestionParameters", .obj [("aiServices", .obj [("x", .str "y")])])]
     [("aiServices", .obj [("x", .str "y")])]
     (.obj [("x", .str "y")]) _
     (Or.inl rfl) (by decide) (by decide) (by decide) (by decide) (by decide)⟩

/-! ### Placeholder clearing facts for the substitution blocks -/

theorem replaceAOAI_resourceUri_clean (ep ky : String) (a : List (String × Json))
    (hep : ep ≠ URL_PLACEHOLDER) :
    lookupKey (replaceAOAI ep ky a) "resourceUri" ≠ some (.str URL_PLACEHOLDER) := by
  unfold replaceAOAI
  by_cases h1 : lookupKey a "resourceUri" = some (.str URL_PLACEHOLDER)
  · rw [if_pos h1]
    by_cases h2 : lookupKey (setKey a "resourceUri" (.str ep)) "apiKey" =
        some (.str REDACTED_PLACEHOLDER)
    · rw [if_pos h2, lookupKey_setKey_ne _ _ _ _ (by decide), lookupKey_setKey_same]
      intro hc
      exact hep (Json.str.inj (Option.some.inj hc))
    · rw [if_neg h2, lookupKey_setKey_same]
      intro hc
      exact hep (Json.str.inj (Option.some.inj hc))
  · rw [if_neg h1]
    by_cases h2 : lookupKey a "apiKey" = some (.str REDACTED_PLACEHOLDER)
    · rw [if_pos h2, lookupKey_setKey_ne _ _ _ _ (by decide)]
      exact h1
    · rw [if_neg h2]
      exact h1

theorem replaceAOAI_apiKey_clean (ep ky : String) (a : List (String × Json))
    (hky : ky ≠ REDACTED_PLACEHOLDER) :
    lookupKey (replaceAOAI ep ky a) "apiKey" ≠ some (.str REDACTED_PLACEHOLDER) := by
  unfold replaceAOAI
  by_cases h1 : lookupKey a "resourceUri" = some (.str URL_PLACEHOLDER) <;>
    [rw [if_pos h1]; rw [if_neg h1]]
  · have hx : lookupKey (setKey a "resourceUri" (.str ep)) "apiKey" =
        lookupKey a "apiKey" := lookupKey_setKey_ne _ _ _ _ (by decide)
    by_cases h2 : lookupKey (setKey a "resourceUri" (.str ep)) "apiKey" =
        some (.str REDACTED_PLACEHOLDER)
    · rw [if_pos h2, lookupKey_setKey_same]
      intro hc
      exact hky (Json.str.inj (Option.some.inj hc))
    · rw [if_neg h2, hx]
      rw [hx] at h2
      exact h2
  · by_cases h2 : lookupKey a "apiKey" = some (.str REDACTED_PLACEHOLDER)
    · rw [if_pos h2, lookupKey_setKey_same]
      intro hc
      exact hky (Json.str.inj (Option.some.inj hc))
    · rw [if_neg h2]
      exact h2

theorem replaceAiSvc_uri_clean (ep ky : String) (a : List (String × Json))
    (hep : ep ≠ URL_PLACEHOLDER) :
    lookupKey (replaceAiSvc ep ky a) "uri" ≠ some (.str URL_PLACEHOLDER) := by
  unfold replaceAiSvc
  by_cases h1 : lookupKey a "uri" = some (.str URL_PLACEHOLDER)
  · rw [if_pos h1]
    by_cases h2 : lookupKey (setKey a "uri" (.str ep)) "apiKey" =
        some (.str REDACTED_PLACEHOLDER)
    · rw [if_pos h2, lookupKey_setKey_ne _ _ _ _ (by decide), lookupKey_setKey_same]
      intro hc
      exact hep (Json.str.inj (Option.some.inj hc))
    · rw [if_neg h2, lookupKey_setKey_same]
      intro hc
      exact hep (Json.str.inj (Option.some.inj hc))
  · rw [if_neg h1]
    by_cases h2 : lookupKey a "apiKey" = some (.str REDACTED_PLACEHOLDER)
    · rw [if_pos h2, lookupKey_setKey_ne _ _ _ _ (by decide)]
      exact h1
    · rw [if_neg h2]
      exact h1

theorem replaceAiSvc_apiKey_clean (ep ky : String) (a : List (String × Json))
    (hky : ky ≠ REDACTED_PLACEHOLDER) :
    lookupKey (replaceAiSvc ep ky a) "apiKey" ≠ some (.str REDACTED_PLACEHOLDER) := by
  unfold replaceAiSvc
  by_cases h1 : lookupKey a "uri" = some (.str URL_PLACEHOLDER) <;>
    [rw [if_pos h1]; rw [if_neg h1]]
  · have hx : lookupKey (setKey a "uri" (.str ep)) "apiKey" =
        lookupKey a "apiKey" := lookupKey_setKey_ne _ _ _ _ (by decide)
    by_cases h2 : lookupKey (setKey a "uri" (.str ep)) "apiKey" =
        some (.str REDACTED_PLACEHOLDER)
    · rw [if_pos h2, lookupKey_setKey_same]
      intro hc
      exact hky (Json.str.inj (Option.some.inj hc))
    · rw [if_neg h2, hx]
      rw [hx] at h2
      exact h2
  · by_cases h2 : lookupKey a "apiKey" = some (.str REDACTED_PLACEHOLDER)
    · rw [if_pos h2, lookupKey_setKey_same]
      intro hc
      exact hky (Json.str.inj (Option.some.inj hc))
    · rw [if_neg h2]
      exact h2

theorem handleAiServices_some (aiEp aiKey : Option String) (ip ip3 : List (String × Json))
    (h : handleAiServices aiEp aiKey ip = some ip3) :
    (ip3 = ip ∧ notDeep (lookupKey ip "aiServices")) ∨
    (ip3 = setKey ip "aiServices" .null) ∨
    (∃ a, lookupKey ip "aiServices" = some (.obj a) ∧
       aiCredsOk aiEp aiKey = true ∧
       ip3 = setKey ip "aiServices"
         (.obj (replaceAiSvc (aiEp.getD "") (aiKey.getD "") a))) := by
  unfold handleAiServices at h
  cases hv : lookupKey ip "aiServices" with
  | none =>
      rw [hv] at h
      left
      exact ⟨(Option.some.inj h).symm, fun o ho => by cases ho⟩
  | some v =>
      rw [hv] at h
      dsimp only at h
      by_cases ht : truthy v
      · rw [if_pos ht] at h
        by_cases hok : aiCredsOk aiEp aiKey
        · rw [if_pos hok] at h
          cases v with
          | obj a =>
              right; right
              exact ⟨a, rfl, hok, (Option.some.inj h).symm⟩
          | null => exact Option.noConfusion h
          | bool b => exact Option.noConfusion h
          | num n => exact Option.noConfusion h
          | str s => exact Option.noConfusion h
          | arr xs => exact Option.noConfusion h
        · rw [if_neg hok] at h
          right; left
          exact (Option.some.inj h).symm
      · rw [if_neg ht] at h
        left
        refine ⟨(Option.some.inj h).symm, fun o ho => ?_⟩
        have : v = Json.obj o := Option.some.inj ho
        subst this
        cases o with
        | nil => rfl
        | cons p rest => simp [truthy] at ht

theorem handleAiServices_frame (aiEp aiKey : Option String)
    (ip ip3 : List (String × Json)) (k2 : String)
    (h : handleAiServices aiEp aiKey ip = some ip3) (hne : k2 ≠ "aiServices") :
    lookupKey ip3 k2 = lookupKey ip k2 := by
  unfold handleAiServices at h
  repeat' split at h
  all_goals first
    | exact Option.noConfusion h
    | (rw [← Option.some.inj h]; try exact lookupKey_setKey_ne _ _ _ _ hne)

theorem getPath_nil_eq (v : Json) : getPath v [] = some v := by
  cases v <;> rfl

theorem getPath_single_ne (kvs : List (String × Json)) (k : String) (w : Json)
    (h : lookupKey kvs k ≠ some w) : getPath (.obj kvs) [k] ≠ some w := by
  rw [getPath_obj_cons]
  cases hv : lookupKey kvs k with
  | none => exact fun hc => Option.noConfusion hc
  | some v =>
      intro hc
      apply h
      rw [hv]
      dsimp only at hc
      rw [getPath_nil_eq] at hc
      exact hc

theorem connStringTrigger_false_ne (ov : Option Json)
    (h : connStringTrigger ov = false) : ov ≠ some (.str REDACTED_PLACEHOLDER) := by
  intro hc
  rw [hc] at h
  simp [connStringTrigger] at h

theorem conn_step_clean (bp : List (String × Json)) (cs : String)
    (hcs : cs ≠ REDACTED_PLACEHOLDER) :
    lookupKey (if connStringTrigger (lookupKey bp "connectionString")
      then setKey bp "connectionString" (.str cs) else bp) "connectionString" ≠
      some (.str REDACTED_PLACEHOLDER) := by
  by_cases hc : connStringTrigger (lookupKey bp "connectionString") = true
  · rw [if_pos hc, lookupKey_setKey_same]
    intro hx
    exact hcs (Json.str.inj (Option.some.inj hx))
  · rw [if_neg hc]
    exact connStringTrigger_false_ne _ (by simpa using hc)

theorem cont_step_clean (bp1 : List (String × Json)) (bc : String)
    (hbc : bc ≠ CONTAINER_PLACEHOLDER) :
    lookupKey (if lookupKey bp1 "containerName" = some (.str CONTAINER_PLACEHOLDER)
      then setKey bp1 "containerName" (.str bc) else bp1) "containerName" ≠
      some (.str CONTAINER_PLACEHOLDER) := by
  by_cases hc : lookupKey bp1 "containerName" = some (.str CONTAINER_PLACEHOLDER)
  · rw [if_pos hc, lookupKey_setKey_same]
    intro hx
    exact hbc (Json.str.inj (Option.some.inj hx))
  · rw [if_neg hc]
    exact hc

theorem aiCredsOk_true_inv (aiEp aiKey : Option String)
    (h : aiCredsOk aiEp aiKey = true) :
    ∃ e k, aiEp = some e ∧ aiKey = some k := by
  cases aiEp with
  | none => cases h
  | some e =>
      cases aiKey with
      | none => cases h
      | some k => exact ⟨e, k, rfl, rfl⟩

theorem modelField_clean (ep ky : String) (ip ip1 z : List (String × Json))
    (field : String) (hep : ep ≠ URL_PLACEHOLDER) (hky : ky ≠ REDACTED_PLACEHOLDER)
    (h : withObjFieldB ip field ["azureOpenAIParameters"]
        (fun em => withObjFieldA em "azureOpenAIParameters"
          (fun a => some (replaceAOAI ep ky a))) = some ip1)
    (hz : lookupKey z field = lookupKey ip1 field) :
    getPath (.obj z) [field, "azureOpenAIParameters", "resourceUri"] ≠
      some (.str URL_PLACEHOLDER) ∧
    getPath (.obj z) [field, "azureOpenAIParameters", "apiKey"] ≠
      some (.str REDACTED_PLACEHOLDER) := by
  rcases withObjFieldB_some _ _ _ _ _ h with ⟨he, hd⟩ | ⟨em, em1, hlk, hnE, hf, he⟩
  · have hzn : notDeep (lookupKey z field) := by
      rw [hz, he]
      exact hd
    constructor <;>
      · intro hc
        rw [getPath_none_of_notDeep _ _ _ _ hzn] at hc
        cases hc
  · have hz1 : lookupKey z field = some (.obj em1) := by
      rw [hz, he, lookupKey_setKey_same]
    rcases withObjFieldA_some _ _ _ _ hf with ⟨he2, hd2⟩ | ⟨a, a2, hlk2, hnE2, hf2, he2⟩
    · subst he2
      constructor <;>
        · rw [getPath_lookup _ _ _ _ hz1]
          intro hc
          rw [getPath_none_of_notDeep _ _ _ _ hd2] at hc
          cases hc
    · have ha2 : a2 = replaceAOAI ep ky a := (Option.some.inj hf2).symm
      subst ha2
      have haoai : lookupKey em1 "azureOpenAIParameters" =
          some (.obj (replaceAOAI ep ky a)) := by
        rw [he2, lookupKey_setKey_same]
      constructor
      · rw [getPath_lookup _ _ _ _ hz1, getPath_lookup _ _ _ _ haoai]
        exact getPath_single_ne _ _ _ (replaceAOAI_resourceUri_clean ep ky a hep)
      · rw [getPath_lookup _ _ _ _ hz1, getPath_lookup _ _ _ _ haoai]
        exact getPath_single_ne _ _ _ (replaceAOAI_apiKey_clean ep ky a hky)

theorem processBlobParams_clean (ep ky cs bc : String) (aiEp aiKey : Option String)
    (bp bp' : List (String × Json))
    (hep : ep ≠ URL_PLACEHOLDER) (hky : ky ≠ REDACTED_PLACEHOLDER)
    (hcs : cs ≠ REDACTED_PLACEHOLDER) (hbc : bc ≠ CONTAINER_PLACEHOLDER)
    (haiE : ∀ e, aiEp = some e → e ≠ URL_PLACEHOLDER)
    (haiK : ∀ k, aiKey = some k → k ≠ REDACTED_PLACEHOLDER)
    (h : processBlobParams ep ky cs bc aiEp aiKey bp = some bp') :
    lookupKey bp' "connectionString" ≠ some (.str REDACTED_PLACEHOLDER) ∧
    lookupKey bp' "containerName" ≠ some (.str CONTAINER_PLACEHOLDER) ∧
    getPath (.obj bp') ["ingestionParameters", "embeddingModel",
      "azureOpenAIParameters", "resourceUri"] ≠ some (.str URL_PLACEHOLDER) ∧
    getPath (.obj bp') ["ingestionParameters", "embeddingModel",
      "azureOpenAIParameters", "apiKey"] ≠ some (.str REDACTED_PLACEHOLDER) ∧
    getPath (.obj bp') ["ingestionParameters", "chatCompletionModel",
      "azureOpenAIParameters", "resourceUri"] ≠ some (.str URL_PLACEHOLDER) ∧
    getPath (.obj bp') ["ingestionParameters", "chatCompletionModel",
      "azureOpenAIParameters", "apiKey"] ≠ some (.str REDACTED_PLACEHOLDER) ∧
    getPath (.obj bp') ["ingestionParameters", "aiServices", "uri"] ≠
      some (.str URL_PLACEHOLDER) ∧
    getPath (.obj bp') ["ingestionParameters", "aiServices", "apiKey"] ≠
      some (.str REDACTED_PLACEHOLDER) := by
  unfold processBlobParams at h
  set bp1 := if connStringTrigger (lookupKey bp "connectionString")
             then setKey bp "connectionString" (.str cs) else bp with hbp1
  set bp2 := if lookupKey bp1 "containerName" = some (.str CONTAINER_PLACEHOLDER)
             then setKey bp1 "containerName" (.str bc) else bp1 with hbp2
  have hconn2 : lookupKey bp2 "connectionString" ≠ some (.str REDACTED_PLACEHOLDER) := by
    rw [hbp2, lookupKey_ite_setKey_ne _ _ _ _ _ (by decide), hbp1]
    exact conn_step_clean bp cs hcs
  have hcont2 : lookupKey bp2 "containerName" ≠ some (.str CONTAINER_PLACEHOLDER) := by
    rw [hbp2]
    exact cont_step_clean bp1 bc hbc
  rcases withObjFieldB_some _ _ _ _ _ h with ⟨he, hd⟩ | ⟨ip, ip3, hlk, hnE, hf, he⟩
  · subst he
    refine ⟨hconn2, hcont2, ?_, ?_, ?_, ?_, ?_, ?_⟩ <;>
      · intro hc
        rw [getPath_none_of_notDeep _ _ _ _ hd] at hc
        cases hc
  · try dsimp only at hf
    have hipf : lookupKey bp' "ingestionParameters" = some (.obj ip3) := by
      rw [he, lookupKey_setKey_same]
    have hconn' : lookupKey bp' "connectionString" ≠ some (.str REDACTED_PLACEHOLDER) := by
      rw [he, lookupKey_setKey_ne _ _ _ _ (by decide)]
      exact hconn2
    have hcont' : lookupKey bp' "containerName" ≠ some (.str CONTAINER_PLACEHOLDER) := by
      rw [he, lookupKey_setKey_ne _ _ _ _ (by decide)]
      exact hcont2
    cases hem : withObjFieldB ip "embeddingModel" ["azureOpenAIParameters"]
        (fun em => withObjFieldA em "azureOpenAIParameters"
          (fun a => some (replaceAOAI ep ky a))) with
    | none => rw [hem] at hf; exact Option.noConfusion hf
    | some ip1 =>
        rw [hem] at hf
        dsimp only at hf
        cases hch : withObjFieldB ip1 "chatCompletionModel" ["azureOpenAIParameters"]
            (fun em => withObjFieldA em "azureOpenAIParameters"
              (fun a => some (replaceAOAI ep ky a))) with
        | none => rw [hch] at hf; exact Option.noConfusion hf
        | some ip2 =>
            rw [hch] at hf
            dsimp only at hf
            have hem3 : lookupKey ip3 "embeddingModel" = lookupKey ip1 "embeddingModel" := by
              rw [handleAiServices_frame _ _ _ _ _ hf (by decide),
                withObjFieldB_frame _ _ _ _ _ _ hch (by decide)]
            have hch3 : lookupKey ip3 "chatCompletionModel" =
                lookupKey ip2 "chatCompletionModel" :=
              handleAiServices_frame _ _ _ _ _ hf (by decide)
            obtain ⟨hemru, hemak⟩ :=
              modelField_clean ep ky ip ip1 ip3 "embeddingModel" hep hky hem hem3
            obtain ⟨hchru, hchak⟩ :=
              modelField_clean ep ky ip1 ip2 ip3 "chatCompletionModel" hep hky hch hch3
            have hsvc : getPath (.obj ip3) ["aiServices", "uri"] ≠
                some (.str URL_PLACEHOLDER) ∧
                getPath (.obj ip3) ["aiServices", "apiKey"] ≠
                some (.str REDACTED_PLACEHOLDER) := by
              rcases handleAiServices_some _ _ _ _ hf with ⟨he3, hd3⟩ | he3 | ⟨a, ha, hok, he3⟩
              · subst he3
                constructor <;>
                  · intro hc
                    rw [getPath_none_of_notDeep _ _ _ _ hd3] at hc
                    cases hc
              · have hserv : lookupKey ip3 "aiServices" = some Json.null := by
                  rw [he3, lookupKey_setKey_same]
                constructor <;>
                  · rw [getPath_lookup _ _ _ _ hserv]
                    intro hc
                    cases hc
              · obtain ⟨e0, k0, hE0, hK0⟩ := aiCredsOk_true_inv _ _ hok
                have hserv : lookupKey ip3 "aiServices" =
                    some (.obj (replaceAiSvc (aiEp.getD "") (aiKey.getD "") a)) := by
                  rw [he3, lookupKey_setKey_same]
                have hE1 : aiEp.getD "" = e0 := by rw [hE0]; rfl
                have hK1 : aiKey.getD "" = k0 := by rw [hK0]; rfl
                constructor
                · rw [getPath_lookup _ _ _ _ hserv]
                  refine getPath_single_ne _ _ _ ?_
                  rw [hE1]
                  exact replaceAiSvc_uri_clean e0 _ a (haiE e0 hE0)
                · rw [getPath_lookup _ _ _ _ hserv]
                  refine getPath_single_ne _ _ _ ?_
                  rw [hK1]
                  exact replaceAiSvc_apiKey_clean _ k0 a (haiK k0 hK0)
            refine ⟨hconn', hcont', ?_, ?_, ?_, ?_, ?_, ?_⟩ <;>
              rw [getPath_lookup _ _ _ _ hipf]
            · exact hemru
            · exact hemak
            · exact hchru
            · exact hchak
            · exact hsvc.1
            · exact hsvc.2

theorem processIndexedParams_clean (ep ky : String) (p p' : List (String × Json))
    (hep : ep ≠ URL_PLACEHOLDER) (hky : ky ≠ REDACTED_PLACEHOLDER)
    (h : processIndexedParams ep ky p = some p') :
    getPath (.obj p') ["ingestionParameters", "embeddingModel",
      "azureOpenAIParameters", "resourceUri"] ≠ some (.str URL_PLACEHOLDER) ∧
    getPath (.obj p') ["ingestionParameters", "embeddingModel",
      "azureOpenAIParameters", "apiKey"] ≠ some (.str REDACTED_PLACEHOLDER) := by
  unfold processIndexedParams at h
  rcases withObjFieldB_some _ _ _ _ _ h with ⟨he, hd⟩ | ⟨ip, ipz, hlk, hnE, hf, he⟩
  · subst he
    constructor <;>
      · intro hc
        rw [getPath_none_of_notDeep _ _ _ _ hd] at hc
        cases hc
  · try dsimp only at hf
    have hipf : lookupKey p' "ingestionParameters" = some (.obj ipz) := by
      rw [he, lookupKey_setKey_same]
    obtain ⟨h1, h2⟩ := modelField_clean ep ky ip ipz ipz "embeddingModel" hep hky hf rfl
    constructor <;> rw [getPath_lookup _ _ _ _ hipf]
    · exact h1
    · exact h2

theorem replaceModels_mem (ep ky : String) (xs : List Json) :
    ∀ (xs2 : List Json) (m : Json), replaceModels ep ky xs = some xs2 → m ∈ xs2 →
      ∃ m0, m0 ∈ xs ∧ replaceModelEntry ep ky m0 = some m := by
  induction xs with
  | nil =>
      intro xs2 m h hm
      unfold replaceModels at h
      rw [← Option.some.inj h] at hm
      cases hm
  | cons m0 ms ih =>
      intro xs2 m h hm
      unfold replaceModels at h
      cases h1 : replaceModelEntry ep ky m0 with
      | none => rw [h1] at h; exact Option.noConfusion h
      | some m2 =>
          rw [h1] at h
          dsimp only at h
          cases h2 : replaceModels ep ky ms with
          | none => rw [h2] at h; exact Option.noConfusion h
          | some ms2 =>
              rw [h2] at h
              have he : m2 :: ms2 = xs2 := Option.some.inj h
              subst he
              rcases List.mem_cons.mp hm with he2 | hm2
              · subst he2
                exact ⟨m0, List.mem_cons_self m0 ms, h1⟩
              · obtain ⟨m1, hmem, hme⟩ := ih ms2 m h2 hm2
                exact ⟨m1, List.mem_cons_of_mem m0 hmem, hme⟩

theorem replaceModelEntry_clean (ep ky : String) (m0 m : Json)
    (hep : ep ≠ URL_PLACEHOLDER) (hky : ky ≠ REDACTED_PLACEHOLDER)
    (h : replaceModelEntry ep ky m0 = some m) :
    getPath m ["azureOpenAIParameters", "resourceUri"] ≠ some (.str URL_PLACEHOLDER) ∧
    getPath m ["azureOpenAIParameters", "apiKey"] ≠ some (.str REDACTED_PLACEHOLDER) := by
  cases m0 with
  | obj mm =>
      simp only [replaceModelEntry] at h
      cases hw : withObjFieldA mm "azureOpenAIParameters"
          (fun a => some (replaceAOAI ep ky a)) with
      | none => rw [hw] at h; exact Option.noConfusion h
      | some m2 =>
          rw [hw] at h
          have he : m = .obj m2 := (Option.some.inj h).symm
          subst he
          rcases withObjFieldA_some _ _ _ _ hw with ⟨he2, hd2⟩ | ⟨a, a2, hlk2, hnE2, hf2, he2⟩
          · subst he2
            constructor <;>
              · intro hc
                rw [getPath_none_of_notDeep _ _ _ _ hd2] at hc
                cases hc
          · have ha2 : a2 = replaceAOAI ep ky a := (Option.some.inj hf2).symm
            subst ha2
            have haoai : lookupKey m2 "azureOpenAIParameters" =
                some (.obj (replaceAOAI ep ky a)) := by
              rw [he2, lookupKey_setKey_same]
            constructor <;> rw [getPath_lookup _ _ _ _ haoai]
            · exact getPath_single_ne _ _ _ (replaceAOAI_resourceUri_clean ep ky a hep)
            · exact getPath_single_ne _ _ _ (replaceAOAI_apiKey_clean ep ky a hky)
  | str s =>
      simp only [replaceModelEntry] at h
      by_cases hc : listInfix "azureOpenAIParameters".data s.data = true
      · rw [if_pos hc] at h; exact Option.noConfusion h
      · rw [if_neg hc] at h
        have he : m = .str s := (Option.some.inj h).symm
        subst he
        exact ⟨fun hx => Option.noConfusion hx, fun hx => Option.noConfusion hx⟩
  | arr xs =>
      simp only [replaceModelEntry] at h
      by_cases hc : xs.contains (.str "azureOpenAIParameters") = true
      · rw [if_pos hc] at h; exact Option.noConfusion h
      · rw [if_neg hc] at h
        have he : m = .arr xs := (Option.some.inj h).symm
        subst he
        exact ⟨fun hx => Option.noConfusion hx, fun hx => Option.noConfusion hx⟩
  | null => exact Option.noConfusion h
  | bool b => exact Option.noConfusion h
  | num n => exact Option.noConfusion h

theorem handleModels_clean (ep ky : String) (kvs kvs1 : List (String × Json))
    (hep : ep ≠ URL_PLACEHOLDER) (hky : ky ≠ REDACTED_PLACEHOLDER)
    (h : handleModels ep ky kvs = some kvs1)
    (ms : List Json) (hms : lookupKey kvs1 "models" = some (.arr ms))
    (m : Json) (hm : m ∈ ms) :
    getPath m ["azureOpenAIParameters", "resourceUri"] ≠ some (.str URL_PLACEHOLDER) ∧
    getPath m ["azureOpenAIParameters", "apiKey"] ≠ some (.str REDACTED_PLACEHOLDER) := by
  unfold handleModels at h
  cases hv : lookupKey kvs "models" with
  | none =>
      rw [hv] at h
      rw [← Option.some.inj h, hv] at hms
      exact Option.noConfusion hms
  | some v =>
      rw [hv] at h
      dsimp only at h
      by_cases ht : truthy v
      · rw [if_pos ht] at h
        cases v with
        | arr xs =>
            dsimp only at h
            cases hr : replaceModels ep ky xs with
            | none => rw [hr] at h; exact Option.noConfusion h
            | some xs2 =>
                rw [hr] at h
                have he : kvs1 = setKey kvs "models" (.arr xs2) :=
                  (Option.some.inj h).symm
                rw [he, lookupKey_setKey_same] at hms
                have hx : xs2 = ms := by
                  have := Option.some.inj hms
                  exact Json.arr.inj this
                subst hx
                obtain ⟨m0, _, hme⟩ := replaceModels_mem ep ky xs xs2 m hr hm
                exact replaceModelEntry_clean ep ky m0 m hep hky hme
        | str s =>
            have he : kvs1 = kvs := (Option.some.inj h).symm
            rw [he, hv] at hms
            exact Json.noConfusion (Option.some.inj hms)
        | obj o =>
            dsimp only at h
            by_cases ha : o.any (fun p => listInfix "azureOpenAIParameters".data p.1.data) = true
            · rw [if_pos ha] at h; exact Option.noConfusion h
            · rw [if_neg ha] at h
              have he : kvs1 = kvs := (Option.some.inj h).symm
              rw [he, hv] at hms
              exact Json.noConfusion (Option.some.inj hms)
        | null => exact Option.noConfusion h
        | bool b => exact Option.noConfusion h
        | num n => exact Option.noConfusion h
      · rw [if_neg ht] at h
        have he : kvs1 = kvs := (Option.some.inj h).symm
        rw [he, hv] at hms
        have hvm : v = Json.arr ms := Option.some.inj hms
        subst hvm
        cases ms with
        | nil => cases hm
        | cons x rest => simp [truthy] at ht

theorem handleInferenceParams_clean (ep ky : String) (kvs1 kvs2 : List (String × Json))
    (hep : ep ≠ URL_PLACEHOLDER) (hky : ky ≠ REDACTED_PLACEHOLDER)
    (h : handleInferenceParams ep ky kvs1 = some kvs2) :
    getPath (.obj kvs2) ["inferenceParameters", "azureOpenAIParameters",
      "resourceUri"] ≠ some (.str URL_PLACEHOLDER) ∧
    getPath (.obj kvs2) ["inferenceParameters", "azureOpenAIParameters",
      "apiKey"] ≠ some (.str REDACTED_PLACEHOLDER) := by
  unfold handleInferenceParams at h
  cases hv : lookupKey kvs1 "inferenceParameters" with
  | none =>
      rw [hv] at h
      have he : kvs2 = kvs1 := (Option.some.inj h).symm
      subst he
      have hd : notDeep (lookupKey kvs2 "inferenceParameters") := by
        rw [hv]; exact fun o ho => by cases ho
      constructor <;>
        · intro hc
          rw [getPath_none_of_notDeep _ _ _ _ hd] at hc
          cases hc
  | some v =>
      rw [hv] at h
      cases v with
      | obj ip =>
          dsimp only at h
          by_cases hie : ip.isEmpty
          · rw [if_pos hie] at h
            have he : kvs2 = kvs1 := (Option.some.inj h).symm
            subst he
            have hd : notDeep (lookupKey kvs2 "inferenceParameters") := by
              rw [hv]
              exact fun o ho => by
                have := Json.obj.inj (Option.some.inj ho)
                rw [← this]
                exact List.isEmpty_iff.mp hie
            constructor <;>
              · intro hc
                rw [getPath_none_of_notDeep _ _ _ _ hd] at hc
                cases hc
          · rw [if_neg hie] at h
            cases ha : lookupKey ip "azureOpenAIParameters" with
            | none =>
                rw [ha] at h
                have he : kvs2 = kvs1 := (Option.some.inj h).symm
                subst he
                constructor <;>
                  · rw [getPath_lookup _ _ _ _ hv, getPath_obj_cons, ha]
                    exact fun hc => Option.noConfusion hc
            | some a =>
                rw [ha] at h
                cases a with
                | obj ao =>
                    have he : kvs2 = setKey kvs1 "inferenceParameters"
                        (.obj (setKey ip "azureOpenAIParameters"
                          (.obj (replaceAOAI ep ky ao)))) := (Option.some.inj h).symm
                    have hlk1 : lookupKey kvs2 "inferenceParameters" =
                        some (.obj (setKey ip "azureOpenAIParameters"
                          (.obj (replaceAOAI ep ky ao)))) := by
                      rw [he, lookupKey_setKey_same]
                    have hlk2 : lookupKey (setKey ip "azureOpenAIParameters"
                        (.obj (replaceAOAI ep ky ao))) "azureOpenAIParameters" =
                        some (.obj (replaceAOAI ep ky ao)) := lookupKey_setKey_same _ _ _
                    constructor <;>
                      rw [getPath_lookup _ _ _ _ hlk1, getPath_lookup _ _ _ _ hlk2]
                    · exact getPath_single_ne _ _ _
                        (replaceAOAI_resourceUri_clean ep ky ao hep)
                    · exact getPath_single_ne _ _ _
                        (replaceAOAI_apiKey_clean ep ky ao hky)
                | null => exact Option.noConfusion h
                | bool b => exact Option.noConfusion h
                | num n => exact Option.noConfusion h
                | str s => exact Option.noConfusion h
                | arr xs => exact Option.noConfusion h
      | null =>
          dsimp only at h
          have he : kvs2 = kvs1 := (Option.some.inj (by simpa [truthy] using h)).symm
          subst he
          have hd : notDeep (lookupKey kvs2 "inferenceParameters") := by
            rw [hv]; exact fun o ho => by cases Option.some.inj ho
          constructor <;>
            · intro hc
              rw [getPath_none_of_notDeep _ _ _ _ hd] at hc
              cases hc
      | bool b =>
          dsimp only at h
          have hd : notDeep (lookupKey kvs1 "inferenceParameters") := by
            rw [hv]; exact fun o ho => by cases Option.some.inj ho
          have he : kvs2 = kvs1 := by
            by_cases ht : truthy (.bool b) = true
            · rw [if_pos ht] at h
              by_cases hc : probeCrash ["azureOpenAIParameters"] (.bool b) = true
              · rw [if_pos hc] at h; exact Option.noConfusion h
              · rw [if_neg hc] at h; exact (Option.some.inj h).symm
            · rw [if_neg ht] at h; exact (Option.some.inj h).symm
          subst he
          constructor <;>
            · intro hc
              rw [getPath_none_of_notDeep _ _ _ _ hd] at hc
              cases hc
      | num n =>
          dsimp only at h
          have hd : notDeep (lookupKey kvs1 "inferenceParameters") := by
            rw [hv]; exact fun o ho => by cases Option.some.inj ho
          have he : kvs2 = kvs1 := by
            by_cases ht : truthy (.num n) = true
            · rw [if_pos ht] at h
              by_cases hc : probeCrash ["azureOpenAIParameters"] (.num n) = true
              · rw [if_pos hc] at h; exact Option.noConfusion h
              · rw [if_neg hc] at h; exact (Option.some.inj h).symm
            · rw [if_neg ht] at h; exact (Option.some.inj h).symm
          subst he
          constructor <;>
            · intro hc
              rw [getPath_none_of_notDeep _ _ _ _ hd] at hc
              cases hc
      | str s =>
          dsimp only at h
          have hd : notDeep (lookupKey kvs1 "inferenceParameters") := by
            rw [hv]; exact fun o ho => by cases Option.some.inj ho
          have he : kvs2 = kvs1 := by
            by_cases ht : truthy (.str s) = true
            · rw [if_pos ht] at h
              by_cases hc : probeCrash ["azureOpenAIParameters"] (.str s) = true
              · rw [if_pos hc] at h; exact Option.noConfusion h
              · rw [if_neg hc] at h; exact (Option.some.inj h).symm
            · rw [if_neg ht] at h; exact (Option.some.inj h).symm
          subst he
          constructor <;>
            · intro hc
              rw [getPath_none_of_notDeep _ _ _ _ hd] at hc
              cases hc
      | arr xs =>
          dsimp only at h
          have hd : notDeep (lookupKey kvs1 "inferenceParameters") := by
            rw [hv]; exact fun o ho => by cases Option.some.inj ho
          have he : kvs2 = kvs1 := by
            by_cases ht : truthy (.arr xs) = true
            · rw [if_pos ht] at h
              by_cases hc : probeCrash ["azureOpenAIParameters"] (.arr xs) = true
              · rw [if_pos hc] at h; exact Option.noConfusion h
              · rw [if_neg hc] at h; exact (Option.some.inj h).symm
            · rw [if_neg ht] at h; exact (Option.some.inj h).symm
          subst he
          constructor <;>
            · intro hc
              rw [getPath_none_of_notDeep _ _ _ _ hd] at hc
              cases hc

/-- C1 counterexample: the document `{"url": "https://abc.search.windows.net"}`
sanitizes to `{"url": "<AZURE_ENDPOINT_PLACEHOLDER>"}` — a sanitized document —
yet restoring it with a full credential bundle (AI-services included) succeeds
and still contains the endpoint placeholder, because the Restorer substitutes
only at its fixed field paths. -/
theorem sanitized_placeholder_survives_restore :
    sanitize_dict [("url", .str "https://abc.search.windows.net")] "" =
      [("url", .str "<AZURE_ENDPOINT_PLACEHOLDER>")] ∧
    replace_placeholders_in_knowledge_source "EP" "KY" "CS" "BC"
      (some "AIEP") (some "AIKY")
      (.obj [("url", .str "<AZURE_ENDPOINT_PLACEHOLDER>")]) =
      some (.obj [("url", .str "<AZURE_ENDPOINT_PLACEHOLDER>")]) ∧
    hasValue "<AZURE_ENDPOINT_PLACEHOLDER>"
      (.obj [("url", .str "<AZURE_ENDPOINT_PLACEHOLDER>")]) = true := by
  exact ⟨by decide, by decide, by decide⟩

/-- C1 (amended): restoring with a full credential bundle whose values are not
themselves placeholder tokens clears the placeholders at every field path the
Restorer handles — blob connection string and container name, embedding- and
chat-model Azure-OpenAI parameters, the AI-services block, the OneLake and
SharePoint embedding-model parameters, the knowledge-base model entries and
the legacy inference-parameters block — though placeholders elsewhere in the
document may survive. -/
theorem restore_clears_handled_fields (ep ky cs bc aiE aiK : String)
    (kvs kb : List (String × Json)) (d2 e2 : Json)
    (hep : ep ≠ URL_PLACEHOLDER) (hky : ky ≠ REDACTED_PLACEHOLDER)
    (hcs : cs ≠ REDACTED_PLACEHOLDER) (hbc : bc ≠ CONTAINER_PLACEHOLDER)
    (haiE : aiE ≠ URL_PLACEHOLDER) (haiK : aiK ≠ REDACTED_PLACEHOLDER)
    (hKS : replace_placeholders_in_knowledge_source ep ky cs bc (some aiE) (some aiK)
      (.obj kvs) = some d2)
    (hKB : replace_placeholders_in_knowledge_base ep ky (.obj kb) = some e2) :
    getPath d2 ["azureBlobParameters", "connectionString"] ≠
      some (.str REDACTED_PLACEHOLDER) ∧
    getPath d2 ["azureBlobParameters", "containerName"] ≠
      some (.str CONTAINER_PLACEHOLDER) ∧
    getPath d2 ["azureBlobParameters", "ingestionParameters", "embeddingModel",
      "azureOpenAIParameters", "resourceUri"] ≠ some (.str URL_PLACEHOLDER) ∧
    getPath d2 ["azureBlobParameters", "ingestionParameters", "embeddingModel",
      "azureOpenAIParameters", "apiKey"] ≠ some (.str REDACTED_PLACEHOLDER) ∧
    getPath d2 ["azureBlobParameters", "ingestionParameters", "chatCompletionModel",
      "azureOpenAIParameters", "resourceUri"] ≠ some (.str URL_PLACEHOLDER) ∧
    getPath d2 ["azureBlobParameters", "ingestionParameters", "chatCompletionModel",
      "azureOpenAIParameters", "apiKey"] ≠ some (.str REDACTED_PLACEHOLDER) ∧
    getPath d2 ["azureBlobParameters", "ingestionParameters", "aiServices", "uri"] ≠
      some (.str URL_PLACEHOLDER) ∧
    getPath d2 ["azureBlobParameters", "ingestionParameters", "aiServices", "apiKey"] ≠
      some (.str REDACTED_PLACEHOLDER) ∧
    getPath d2 ["indexedOneLakeParameters", "ingestionParameters", "embeddingModel",
      "azureOpenAIParameters", "resourceUri"] ≠ some (.str URL_PLACEHOLDER) ∧
    getPath d2 ["indexedOneLakeParameters", "ingestionParameters", "embeddingModel",
      "azureOpenAIParameters", "apiKey"] ≠ some (.str REDACTED_PLACEHOLDER) ∧
    getPath d2 ["indexedSharePointParameters", "ingestionParameters", "embeddingModel",
      "azureOpenAIParameters", "resourceUri"] ≠ some (.str URL_PLACEHOLDER) ∧
    getPath d2 ["indexedSharePointParameters", "ingestionParameters", "embeddingModel",
      "azureOpenAIParameters", "apiKey"] ≠ some (.str REDACTED_PLACEHOLDER) ∧
    (∀ (kvsE : List (String × Json)) (ms : List Json) (m : Json),
       e2 = .obj kvsE → lookupKey kvsE "models" = some (.arr ms) → m ∈ ms →
       getPath m ["azureOpenAIParameters", "resourceUri"] ≠
         some (.str URL_PLACEHOLDER) ∧
       getPath m ["azureOpenAIParameters", "apiKey"] ≠
         some (.str REDACTED_PLACEHOLDER)) ∧
    getPath e2 ["inferenceParameters", "azureOpenAIParameters", "resourceUri"] ≠
      some (.str URL_PLACEHOLDER) ∧
    getPath e2 ["inferenceParameters", "azureOpenAIParameters", "apiKey"] ≠
      some (.str REDACTED_PLACEHOLDER) := by
  obtain ⟨kvs1, kvs2x, kvs3, h1, h2, h3, hd⟩ :=
    replaceKS_some_inv ep ky cs bc (some aiE) (some aiK) kvs d2 hKS
  subst hd
  obtain ⟨kb1, kb2, g1, g2, ge⟩ := replaceKB_some_inv ep ky kb e2 hKB
  subst ge
  have hblob : lookupKey kvs3 "azureBlobParameters" =
      lookupKey kvs1 "azureBlobParameters" := by
    rw [withObjFieldB_frame _ _ _ _ _ _ h3 (by decide),
      withObjFieldB_frame _ _ _ _ _ _ h2 (by decide)]
  have hBlob :
      getPath (.obj kvs3) ["azureBlobParameters", "connectionString"] ≠
        some (.str REDACTED_PLACEHOLDER) ∧
      getPath (.obj kvs3) ["azureBlobParameters", "containerName"] ≠
        some (.str CONTAINER_PLACEHOLDER) ∧
      getPath (.obj kvs3) ["azureBlobParameters", "ingestionParameters",
        "embeddingModel", "azureOpenAIParameters", "resourceUri"] ≠
        some (.str URL_PLACEHOLDER) ∧
      getPath (.obj kvs3) ["azureBlobParameters", "ingestionParameters",
        "embeddingModel", "azureOpenAIParameters", "apiKey"] ≠
        some (.str REDACTED_PLACEHOLDER) ∧
      getPath (.obj kvs3) ["azureBlobParameters", "ingestionParameters",
        "chatCompletionModel", "azureOpenAIParameters", "resourceUri"] ≠
        some (.str URL_PLACEHOLDER) ∧
      getPath (.obj kvs3) ["azureBlobParameters", "ingestionParameters",
        "chatCompletionModel", "azureOpenAIParameters", "apiKey"] ≠
        some (.str REDACTED_PLACEHOLDER) ∧
      getPath (.obj kvs3) ["azureBlobParameters", "ingestionParameters",
        "aiServices", "uri"] ≠ some (.str URL_PLACEHOLDER) ∧
      getPath (.obj kvs3) ["azureBlobParameters", "ingestionParameters",
        "aiServices", "apiKey"] ≠ some (.str REDACTED_PLACEHOLDER) := by
    rcases withObjFieldA_some _ _ _ _ h1 with ⟨he, hnd⟩ | ⟨bp, bp', hlk, hnE, hpb, he⟩
    · have hnd3 : notDeep (lookupKey kvs3 "azureBlobParameters") := by
        rw [hblob, he]
        exact hnd
      refine ⟨?_, ?_, ?_, ?_, ?_, ?_, ?_, ?_⟩ <;>
        · intro hc
          rw [getPath_none_of_notDeep _ _ _ _ hnd3] at hc
          cases hc
    · have hl3 : lookupKey kvs3 "azureBlobParameters" = some (.obj bp') := by
        rw [hblob, he, lookupKey_setKey_same]
      obtain ⟨c1, c2, c3, c4, c5, c6, c7, c8⟩ :=
        processBlobParams_clean ep ky cs bc (some aiE) (some aiK) bp bp'
          hep hky hcs hbc
          (fun e he2 => by rw [← Option.some.inj he2]; exact haiE)
          (fun k hk2 => by rw [← Option.some.inj hk2]; exact haiK)
          hpb
      exact ⟨by rw [getPath_lookup _ _ _ _ hl3]; exact getPath_single_ne _ _ _ c1,
        by rw [getPath_lookup _ _ _ _ hl3]; exact getPath_single_ne _ _ _ c2,
        by rw [getPath_lookup _ _ _ _ hl3]; exact c3,
        by rw [getPath_lookup _ _ _ _ hl3]; exact c4,
        by rw [getPath_lookup _ _ _ _ hl3]; exact c5,
        by rw [getPath_lookup _ _ _ _ hl3]; exact c6,
        by rw [getPath_lookup _ _ _ _ hl3]; exact c7,
        by rw [getPath_lookup _ _ _ _ hl3]; exact c8⟩
  have hOlk :
      getPath (.obj kvs3) ["indexedOneLakeParameters", "ingestionParameters",
        "embeddingModel", "azureOpenAIParameters", "resourceUri"] ≠
        some (.str URL_PLACEHOLDER) ∧
      getPath (.obj kvs3) ["indexedOneLakeParameters", "ingestionParameters",
        "embeddingModel", "azureOpenAIParameters", "apiKey"] ≠
        some (.str REDACTED_PLACEHOLDER) := by
    have holk3 : lookupKey kvs3 "indexedOneLakeParameters" =
        lookupKey kvs2x "indexedOneLakeParameters" :=
      withObjFieldB_frame _ _ _ _ _ _ h3 (by decide)
    rcases withObjFieldB_some _ _ _ _ _ h2 with ⟨he, hnd⟩ | ⟨p, p', hlk, hnE, hpp, he⟩
    · have hnd3 : notDeep (lookupKey kvs3 "indexedOneLakeParameters") := by
        rw [holk3, he]
        exact hnd
      constructor <;>
        · intro hc
          rw [getPath_none_of_notDeep _ _ _ _ hnd3] at hc
          cases hc
    · have hl3 : lookupKey kvs3 "indexedOneLakeParameters" = some (.obj p') := by
        rw [holk3, he, lookupKey_setKey_same]
      obtain ⟨c1, c2⟩ := processIndexedParams_clean ep ky p p' hep hky hpp
      constructor <;> rw [getPath_lookup _ _ _ _ hl3]
      · exact c1
      · exact c2
  have hSp :
      getPath (.obj kvs3) ["indexedSharePointParameters", "ingestionParameters",
        "embeddingModel", "azureOpenAIParameters", "resourceUri"] ≠
        some (.str URL_PLACEHOLDER) ∧
      getPath (.obj kvs3) ["indexedSharePointParameters", "ingestionParameters",
        "embeddingModel", "azureOpenAIParameters", "apiKey"] ≠
        some (.str REDACTED_PLACEHOLDER) := by
    rcases withObjFieldB_some _ _ _ _ _ h3 with ⟨he, hnd⟩ | ⟨p, p', hlk, hnE, hpp, he⟩
    · have hnd3 : notDeep (lookupKey kvs3 "indexedSharePointParameters") := by
        rw [he]
        exact hnd
      constructor <;>
        · intro hc
          rw [getPath_none_of_notDeep _ _ _ _ hnd3] at hc
          cases hc
    · have hl3 : lookupKey kvs3 "indexedSharePointParameters" = some (.obj p') := by
        rw [he, lookupKey_setKey_same]
      obtain ⟨c1, c2⟩ := processIndexedParams_clean ep ky p p' hep hky hpp
      constructor <;> rw [getPath_lookup _ _ _ _ hl3]
      · exact c1
      · exact c2
  have hmodels : ∀ (kvsE : List (String × Json)) (ms : List Json) (m : Json),
      Json.obj kb2 = .obj kvsE → lookupKey kvsE "models" = some (.arr ms) → m ∈ ms →
      getPath m ["azureOpenAIParameters", "resourceUri"] ≠
        some (.str URL_PLACEHOLDER) ∧
      getPath m ["azureOpenAIParameters", "apiKey"] ≠
        some (.str REDACTED_PLACEHOLDER) := by
    intro kvsE ms m hekv hms hm
    have hk : kvsE = kb2 := (Json.obj.inj hekv).symm
    subst hk
    have hms1 : lookupKey kb1 "models" = some (.arr ms) := by
      rw [← handleInferenceParams_frame _ _ _ _ _ g2 (by decide)]
      exact hms
    exact handleModels_clean ep ky _ kb1 hep hky g1 ms hms1 m hm
  obtain ⟨hinf1, hinf2⟩ := handleInferenceParams_clean ep ky kb1 kb2 hep hky g2
  exact ⟨hBlob.1, hBlob.2.1, hBlob.2.2.1, hBlob.2.2.2.1, hBlob.2.2.2.2.1,
    hBlob.2.2.2.2.2.1, hBlob.2.2.2.2.2.2.1, hBlob.2.2.2.2.2.2.2,
    hOlk.1, hOlk.2, hSp.1, hSp.2, hmodels, hinf1, hinf2⟩

/-- Witness for `restore_clears_handled_fields` on concrete documents. -/
theorem restore_clears_handled_fields_witness :
    (replace_placeholders_in_knowledge_source "EP" "KY" "CS" "BC"
        (some "AIEP") (some "AIKY")
        (.obj [("azureBlobParameters", .obj
          [("connectionString", .str "<REDACTED>")])]) =
      some (.obj [("azureBlobParameters", .obj
        [("connectionString", .str "CS")])])) ∧
    (replace_placeholders_in_knowledge_base "EP" "KY" (.obj [("x", .num 1)]) =
      some (.obj [("x", .num 1)])) ∧
    getPath (.obj [("azureBlobParameters", .obj [("connectionString", .str "CS")])])
      ["azureBlobParameters", "connectionString"] ≠
      some (.str REDACTED_PLACEHOLDER) :=
  ⟨by decide, by decide,
   (restore_clears_handled_fields "EP" "KY" "CS" "BC" "AIEP" "AIKY"
      [("azureBlobParameters", .obj [("connectionString", .str "<REDACTED>")])]
      [("x", .num 1)]
      (.obj [("azureBlobParameters", .obj [("connectionString", .str "CS")])])
      (.obj [("x", .num 1)])
      (by decide) (by decide) (by decide) (by decide) (by decide) (by decide)
      (by decide) (by decide)).1⟩

/-! ### Substitution triggers (claim C9) -/

/-- C9 counterexample: the empty string is none of the three placeholder
tokens, yet the Restorer substitutes the live connection string for it (it
also does so for `null` and for an absent key). -/
theorem conn_string_replaced_without_placeholder :
    replace_placeholders_in_knowledge_source "EP" "KY" "LIVECS" "BC"
      (some "AIEP") (some "AIKY")
      (.obj [("azureBlobParameters", .obj [("connectionString", .str "")])]) =
      some (.obj [("azureBlobParameters", .obj
        [("connectionString", .str "LIVECS")])]) ∧
    "" ≠ REDACTED_PLACEHOLDER ∧ "" ≠ URL_PLACEHOLDER ∧ "" ≠ CONTAINER_PLACEHOLDER := by
  exact ⟨by decide, by decide, by decide, by decide⟩

theorem replaceAOAI_changes_only (ep ky : String) (a : List (String × Json))
    (k2 : String) (h : lookupKey (replaceAOAI ep ky a) k2 ≠ lookupKey a k2) :
    (k2 = "resourceUri" ∧ lookupKey a "resourceUri" = some (.str URL_PLACEHOLDER) ∧
       lookupKey (replaceAOAI ep ky a) "resourceUri" = some (.str ep)) ∨
    (k2 = "apiKey" ∧ lookupKey a "apiKey" = some (.str REDACTED_PLACEHOLDER) ∧
       lookupKey (replaceAOAI ep ky a) "apiKey" = some (.str ky)) := by
  simp only [replaceAOAI] at h ⊢
  by_cases h1 : lookupKey a "resourceUri" = some (.str URL_PLACEHOLDER)
  · rw [if_pos h1] at h ⊢
    have hak : lookupKey (setKey a "resourceUri" (.str ep)) "apiKey" =
        lookupKey a "apiKey" := lookupKey_setKey_ne _ _ _ _ (by decide)
    by_cases h2 : lookupKey (setKey a "resourceUri" (.str ep)) "apiKey" =
        some (.str REDACTED_PLACEHOLDER)
    · rw [if_pos h2] at h ⊢
      by_cases hk : k2 = "apiKey"
      · subst hk
        right
        refine ⟨rfl, by rw [← hak]; exact h2, by rw [lookupKey_setKey_same]⟩
      · by_cases hr : k2 = "resourceUri"
        · subst hr
          left
          exact ⟨rfl, h1, by
            rw [lookupKey_setKey_ne _ _ _ _ (by decide), lookupKey_setKey_same]⟩
        · exact absurd (by
            rw [lookupKey_setKey_ne _ _ _ _ hk, lookupKey_setKey_ne _ _ _ _ hr]) h
    · rw [if_neg h2] at h ⊢
      by_cases hr : k2 = "resourceUri"
      · subst hr
        left
        exact ⟨rfl, h1, lookupKey_setKey_same _ _ _⟩
      · exact absurd (lookupKey_setKey_ne _ _ _ _ hr) h
  · rw [if_neg h1] at h ⊢
    by_cases h2 : lookupKey a "apiKey" = some (.str REDACTED_PLACEHOLDER)
    · rw [if_pos h2] at h ⊢
      by_cases hk : k2 = "apiKey"
      · subst hk
        right
        exact ⟨rfl, h2, lookupKey_setKey_same _ _ _⟩
      · exact absurd (lookupKey_setKey_ne _ _ _ _ hk) h
    · rw [if_neg h2] at h
      exact absurd rfl h

theorem replaceAiSvc_changes_only (ep ky : String) (a : List (String × Json))
    (k2 : String) (h : lookupKey (replaceAiSvc ep ky a) k2 ≠ lookupKey a k2) :
    (k2 = "uri" ∧ lookupKey a "uri" = some (.str URL_PLACEHOLDER) ∧
       lookupKey (replaceAiSvc ep ky a) "uri" = some (.str ep)) ∨
    (k2 = "apiKey" ∧ lookupKey a "apiKey" = some (.str REDACTED_PLACEHOLDER) ∧
       lookupKey (replaceAiSvc ep ky a) "apiKey" = some (.str ky)) := by
  simp only [replaceAiSvc] at h ⊢
  by_cases h1 : lookupKey a "uri" = some (.str URL_PLACEHOLDER)
  · rw [if_pos h1] at h ⊢
    have hak : lookupKey (setKey a "uri" (.str ep)) "apiKey" =
        lookupKey a "apiKey" := lookupKey_setKey_ne _ _ _ _ (by decide)
    by_cases h2 : lookupKey (setKey a "uri" (.str ep)) "apiKey" =
        some (.str REDACTED_PLACEHOLDER)
    · rw [if_pos h2] at h ⊢
      by_cases hk : k2 = "apiKey"
      · subst hk
        right
        refine ⟨rfl, by rw [← hak]; exact h2, by rw [lookupKey_setKey_same]⟩
      · by_cases hr : k2 = "uri"
        · subst hr
          left
          exact ⟨rfl, h1, by
            rw [lookupKey_setKey_ne _ _ _ _ (by decide), lookupKey_setKey_same]⟩
        · exact absurd (by
            rw [lookupKey_setKey_ne _ _ _ _ hk, lookupKey_setKey_ne _ _ _ _ hr]) h
    · rw [if_neg h2] at h ⊢
      by_cases hr : k2 = "uri"
      · subst hr
        left
        exact ⟨rfl, h1, lookupKey_setKey_same _ _ _⟩
      · exact absurd (lookupKey_setKey_ne _ _ _ _ hr) h
  · rw [if_neg h1] at h ⊢
    by_cases h2 : lookupKey a "apiKey" = some (.str REDACTED_PLACEHOLDER)
    · rw [if_pos h2] at h ⊢
      by_cases hk : k2 = "apiKey"
      · subst hk
        right
        exact ⟨rfl, h2, lookupKey_setKey_same _ _ _⟩
      · exact absurd (lookupKey_setKey_ne _ _ _ _ hk) h
    · rw [if_neg h2] at h
      exact absurd rfl h

theorem processBlobParams_triggers (ep ky cs bc : String) (aiEp aiKey : Option String)
    (bp bp' : List (String × Json))
    (h : processBlobParams ep ky cs bc aiEp aiKey bp = some bp') :
    (∀ k2, k2 ≠ "connectionString" → k2 ≠ "containerName" →
       k2 ≠ "ingestionParameters" → lookupKey bp' k2 = lookupKey bp k2) ∧
    (lookupKey bp' "containerName" ≠ lookupKey bp "containerName" →
       lookupKey bp "containerName" = some (.str CONTAINER_PLACEHOLDER) ∧
       lookupKey bp' "containerName" = some (.str bc)) ∧
    (lookupKey bp' "connectionString" ≠ lookupKey bp "connectionString" →
       connStringTrigger (lookupKey bp "connectionString") = true ∧
       lookupKey bp' "connectionString" = some (.str cs)) := by
  unfold processBlobParams at h
  set bp1 := if connStringTrigger (lookupKey bp "connectionString")
             then setKey bp "connectionString" (.str cs) else bp with hbp1
  set bp2v := if lookupKey bp1 "containerName" = some (.str CONTAINER_PLACEHOLDER)
             then setKey bp1 "containerName" (.str bc) else bp1 with hbp2
  have hfr : ∀ k2, k2 ≠ "ingestionParameters" → lookupKey bp' k2 = lookupKey bp2v k2 := by
    intro k2 hk2
    rcases withObjFieldB_some _ _ _ _ _ h with ⟨he, _⟩ | ⟨ip, ip3, _, _, _, he⟩
    · rw [he]
    · rw [he, lookupKey_setKey_ne _ _ _ _ hk2]
  have hc1 : lookupKey bp1 "containerName" = lookupKey bp "containerName" := by
    rw [hbp1, lookupKey_ite_setKey_ne _ _ _ _ _ (by decide)]
  have hc2 : lookupKey bp2v "connectionString" = lookupKey bp1 "connectionString" := by
    rw [hbp2, lookupKey_ite_setKey_ne _ _ _ _ _ (by decide)]
  refine ⟨?_, ?_, ?_⟩
  · intro k2 hcn hct hip
    rw [hfr k2 hip, hbp2, lookupKey_ite_setKey_ne _ _ _ _ _ hct,
      hbp1, lookupKey_ite_setKey_ne _ _ _ _ _ hcn]
  · intro hne
    by_cases hcond : lookupKey bp1 "containerName" = some (.str CONTAINER_PLACEHOLDER)
    · constructor
      · rw [← hc1]; exact hcond
      · rw [hfr _ (by decide), hbp2, if_pos hcond, lookupKey_setKey_same]
    · exfalso
      apply hne
      rw [hfr _ (by decide), hbp2, if_neg hcond, hc1]
  · intro hne
    by_cases htr : connStringTrigger (lookupKey bp "connectionString") = true
    · refine ⟨htr, ?_⟩
      rw [hfr _ (by decide), hc2, hbp1, if_pos htr, lookupKey_setKey_same]
    · exfalso
      apply hne
      rw [hfr _ (by decide), hc2, hbp1, if_neg htr]

/-- C9 (amended): the restore transform substitutes only at its handled fields
and only on the documented triggers: top-level entries other than the two
dropped metadata keys and the three parameter blocks are untouched; within the
blob block, siblings of the handled fields are untouched, the container name
changes only from the container placeholder, and the connection string changes
exactly on its trigger — the secret placeholder, `null`, the empty string or
an absent key (so not only on placeholder values); inside any Azure-OpenAI or
AI-services parameter block, a field changes only from its placeholder
(`resourceUri`/`uri` from the endpoint placeholder, `apiKey` from the secret
placeholder). -/
theorem restore_substitution_triggers (ep ky cs bc : String)
    (aiEp aiKey : Option String) (kvs : List (String × Json)) (d2 : Json)
    (h : replace_placeholders_in_knowledge_source ep ky cs bc aiEp aiKey (.obj kvs) =
      some d2) :
    (∀ (kvs3 : List (String × Json)) (k2 : String), d2 = .obj kvs3 →
       k2 ≠ "@odata.context" → k2 ≠ "@odata.etag" → k2 ≠ "azureBlobParameters" →
       k2 ≠ "indexedOneLakeParameters" → k2 ≠ "indexedSharePointParameters" →
       lookupKey kvs3 k2 = lookupKey kvs k2) ∧
    (∀ (kvs3 bp : List (String × Json)), d2 = .obj kvs3 →
       lookupKey kvs "azureBlobParameters" = some (.obj bp) →
       ∃ bp2, lookupKey kvs3 "azureBlobParameters" = some (.obj bp2) ∧
         (∀ k2, k2 ≠ "connectionString" → k2 ≠ "containerName" →
            k2 ≠ "ingestionParameters" → lookupKey bp2 k2 = lookupKey bp k2) ∧
         (lookupKey bp2 "containerName" ≠ lookupKey bp "containerName" →
            lookupKey bp "containerName" = some (.str CONTAINER_PLACEHOLDER) ∧
            lookupKey bp2 "containerName" = some (.str bc)) ∧
         (lookupKey bp2 "connectionString" ≠ lookupKey bp "connectionString" →
            connStringTrigger (lookupKey bp "connectionString") = true ∧
            lookupKey bp2 "connectionString" = some (.str cs))) ∧
    (∀ (a : List (String × Json)) (k2 : String),
       lookupKey (replaceAOAI ep ky a) k2 ≠ lookupKey a k2 →
       (k2 = "resourceUri" ∧
          lookupKey a "resourceUri" = some (.str URL_PLACEHOLDER) ∧
          lookupKey (replaceAOAI ep ky a) "resourceUri" = some (.str ep)) ∨
       (k2 = "apiKey" ∧
          lookupKey a "apiKey" = some (.str REDACTED_PLACEHOLDER) ∧
          lookupKey (replaceAOAI ep ky a) "apiKey" = some (.str ky))) ∧
    (∀ (e k : String) (a : List (String × Json)) (k2 : String),
       lookupKey (replaceAiSvc e k a) k2 ≠ lookupKey a k2 →
       (k2 = "uri" ∧ lookupKey a "uri" = some (.str URL_PLACEHOLDER) ∧
          lookupKey (replaceAiSvc e k a) "uri" = some (.str e)) ∨
       (k2 = "apiKey" ∧ lookupKey a "apiKey" = some (.str REDACTED_PLACEHOLDER) ∧
          lookupKey (replaceAiSvc e k a) "apiKey" = some (.str k))) := by
  obtain ⟨kvs1, kvs2x, kvs3x, h1, h2, h3, hd⟩ :=
    replaceKS_some_inv ep ky cs bc aiEp aiKey kvs d2 h
  refine ⟨?_, ?_, replaceAOAI_changes_only ep ky,
    fun e k => replaceAiSvc_changes_only e k⟩
  · intro kvs3 k2 he hc1 hc2 hc3 hc4 hc5
    have hk : kvs3 = kvs3x := by
      rw [hd] at he
      exact (Json.obj.inj he).symm
    subst hk
    rw [withObjFieldB_frame _ _ _ _ _ _ h3 hc5,
      withObjFieldB_frame _ _ _ _ _ _ h2 hc4,
      withObjFieldA_frame _ _ _ _ _ h1 hc3,
      lookupKey_dropKey, if_neg hc2, lookupKey_dropKey, if_neg hc1]
  · intro kvs3 bp he hbp
    have hk : kvs3 = kvs3x := by
      rw [hd] at he
      exact (Json.obj.inj he).symm
    subst hk
    have hbp0 : lookupKey (dropKey (dropKey kvs "@odata.context") "@odata.etag")
        "azureBlobParameters" = some (.obj bp) := by
      rw [lookupKey_dropKey, if_neg (by decide), lookupKey_dropKey, if_neg (by decide)]
      exact hbp
    have hblob3 : lookupKey kvs3 "azureBlobParameters" =
        lookupKey kvs1 "azureBlobParameters" := by
      rw [withObjFieldB_frame _ _ _ _ _ _ h3 (by decide),
        withObjFieldB_frame _ _ _ _ _ _ h2 (by decide)]
    rcases withObjFieldA_some _ _ _ _ h1 with ⟨he1, hnd⟩ | ⟨bpx, bp', hlk, hnE, hpb, he1⟩
    · have hbpe : bp = [] := hnd bp hbp0
      refine ⟨bp, ?_, fun k2 _ _ _ => rfl, fun hne => absurd rfl hne,
        fun hne => absurd rfl hne⟩
      rw [hblob3, he1]
      exact hbp0
    · have hbx : bpx = bp := by
        rw [hbp0] at hlk
        exact (Json.obj.inj (Option.some.inj hlk)).symm
      rw [hbx] at hpb
      obtain ⟨t1, t2, t3⟩ :=
        processBlobParams_triggers ep ky cs bc aiEp aiKey bp bp' hpb
      refine ⟨bp', ?_, t1, t2, t3⟩
      rw [hblob3, he1, lookupKey_setKey_same]

/-- Witness for `restore_substitution_triggers` on a concrete document. -/
theorem restore_substitution_triggers_witness :
    (replace_placeholders_in_knowledge_source "EP" "KY" "CS" "BC" none none
        (.obj [("name", .str "ks"),
               ("azureBlobParameters", .obj [("containerName", .str "docs")])]) =
      some (.obj [("name", .str "ks"),
        ("azureBlobParameters", .obj [("containerName", .str "docs"),
          ("connectionString", .str "CS")])])) ∧
    lookupKey [("name", Json.str "ks"),
      ("azureBlobParameters", Json.obj [("containerName", Json.str "docs"),
        ("connectionString", Json.str "CS")])] "name" =
      lookupKey [("name", Json.str "ks"),
        ("azureBlobParameters", Json.obj [("containerName", Json.str "docs")])] "name" :=
  ⟨by decide,
   (restore_substitution_triggers "EP" "KY" "CS" "BC" none none
      [("name", .str "ks"),
       ("azureBlobParameters", .obj [("containerName", .str "docs")])]
      (.obj [("name", .str "ks"),
        ("azureBlobParameters", .obj [("containerName", .str "docs"),
          ("connectionString", .str "CS")])])
      (by decide)).1
     [("name", Json.str "ks"),
      ("azureBlobParameters", Json.obj [("containerName", Json.str "docs"),
        ("connectionString", Json.str "CS")])] "name" rfl
     (by decide) (by decide) (by decide) (by decide) (by decide)⟩

/-! ### Dependency resolver (`src/scripts/dump_az_search.py`) -/

theorem truthy_obj_ne_nil (o : List (String × Json)) (h : o ≠ []) :
    truthy (.obj o) = true := by
  cases o with
  | nil => exact absurd rfl h
  | cons p rest => rfl

theorem extractCreated_obj (ks : List (String × Json)) (bk : String)
    (o c : List (String × Json)) (ho : pyGetD ks bk (.obj []) = .obj o)
    (hne : o ≠ []) (hc : pyGetD o "createdResources" (.obj []) = .obj c) :
    extractCreated ks bk = some ⟨pyGet c "index", pyGet c "indexer",
      pyGet c "datasource", pyGet c "skillset"⟩ := by
  unfold extractCreated
  rw [ho, if_pos (truthy_obj_ne_nil o hne)]
  dsimp only
  rw [hc]

theorem extractCreated_falsy (ks : List (String × Json)) (bk : String)
    (h : truthy (pyGetD ks bk (.obj [])) = false) :
    extractCreated ks bk = some noResources := by
  unfold extractCreated
  rw [if_neg (by rw [h]; exact Bool.false_ne_true)]

/-- C3: kind dispatch of the Dependency Resolver.  For `searchIndex` only the
index name is returned, read from `searchIndexParameters.searchIndexName`; for
`azureBlob`, `indexedOneLake` and `indexedSharePoint` all four names are read
from the `createdResources` sub-block of the kind's parameter block; for the
two remote kinds all four names are `None`; and for any unrecognized kind all
four names are `None` and no exception is raised. -/
theorem extract_resources_dispatch (ks : List (String × Json)) :
    (pyGetD ks "kind" (.str "") = .str "searchIndex" →
       (∀ o, pyGetD ks "searchIndexParameters" (.obj []) = .obj o → o ≠ [] →
          extract_resources_from_ks ks =
            some ⟨pyGet o "searchIndexName", .null, .null, .null⟩) ∧
       (truthy (pyGetD ks "searchIndexParameters" (.obj [])) = false →
          extract_resources_from_ks ks = some noResources)) ∧
    (∀ kk bk, (kk, bk) ∈ [("azureBlob", "azureBlobParameters"),
        ("indexedOneLake", "indexedOneLakeParameters"),
        ("indexedSharePoint", "indexedSharePointParameters")] →
       pyGetD ks "kind" (.str "") = .str kk →
       (∀ o c, pyGetD ks bk (.obj []) = .obj o → o ≠ [] →
          pyGetD o "createdResources" (.obj []) = .obj c →
          extract_resources_from_ks ks =
            some ⟨pyGet c "index", pyGet c "indexer",
              pyGet c "datasource", pyGet c "skillset"⟩) ∧
       (truthy (pyGetD ks bk (.obj [])) = false →
          extract_resources_from_ks ks = some noResources)) ∧
    (∀ kk, kk ∈ REMOTE_KINDS → pyGetD ks "kind" (.str "") = .str kk →
       extract_resources_from_ks ks = some noResources) ∧
    ((∀ kk, kk ∈ INDEXED_KINDS ++ REMOTE_KINDS →
        pyGetD ks "kind" (.str "") ≠ .str kk) →
       extract_resources_from_ks ks = some noResources) := by
  refine ⟨?_, ?_, ?_, ?_⟩
  · intro hkind
    constructor
    · intro o ho hne
      unfold extract_resources_from_ks
      rw [hkind, if_pos rfl, ho, if_pos (truthy_obj_ne_nil o hne)]
    · intro hf
      unfold extract_resources_from_ks
      rw [hkind, if_pos rfl, if_neg (by rw [hf]; exact Bool.false_ne_true)]
  · intro kk bk hmem hkind
    have hcases : (kk = "azureBlob" ∧ bk = "azureBlobParameters") ∨
        (kk = "indexedOneLake" ∧ bk = "indexedOneLakeParameters") ∨
        (kk = "indexedSharePoint" ∧ bk = "indexedSharePointParameters") := by
      simpa using hmem
    have hext : extract_resources_from_ks ks = extractCreated ks bk := by
      rcases hcases with ⟨hk, hb⟩ | ⟨hk, hb⟩ | ⟨hk, hb⟩ <;> subst hk <;> subst hb
      · unfold extract_resources_from_ks
        rw [hkind,
          if_neg (show ¬ (Json.str "azureBlob" = Json.str "searchIndex") by decide),
          if_pos rfl]
      · unfold extract_resources_from_ks
        rw [hkind,
          if_neg (show ¬ (Json.str "indexedOneLake" = Json.str "searchIndex") by decide),
          if_neg (show ¬ (Json.str "indexedOneLake" = Json.str "azureBlob") by decide),
          if_pos rfl]
      · unfold extract_resources_from_ks
        rw [hkind,
          if_neg (show ¬ (Json.str "indexedSharePoint" = Json.str "searchIndex")
            by decide),
          if_neg (show ¬ (Json.str "indexedSharePoint" = Json.str "azureBlob")
            by decide),
          if_neg (show ¬ (Json.str "indexedSharePoint" = Json.str "indexedOneLake")
            by decide),
          if_pos rfl]
    constructor
    · intro o c ho hne hc
      rw [hext]
      exact extractCreated_obj ks bk o c ho hne hc
    · intro hf
      rw [hext]
      exact extractCreated_falsy ks bk hf
  · intro kk hmem hkind
    have hcases : kk = "remoteSharePoint" ∨ kk = "web" := by
      simpa [REMOTE_KINDS] using hmem
    unfold extract_resources_from_ks
    rw [hkind]
    rcases hcases with hk | hk <;> subst hk <;>
      rw [if_neg (by decide), if_neg (by decide), if_neg (by decide),
        if_neg (by decide)]
  · intro hall
    unfold extract_resources_from_ks
    rw [if_neg (hall "searchIndex" (by decide)),
      if_neg (hall "azureBlob" (by decide)),
      if_neg (hall "indexedOneLake" (by decide)),
      if_neg (hall "indexedSharePoint" (by decide))]

/-- Witness for `extract_resources_dispatch`: an `azureBlob` source and an
unknown-kind source, evaluated concretely. -/
theorem extract_resources_dispatch_witness :
    extract_resources_from_ks
      [("kind", Json.str "azureBlob"),
       ("azureBlobParameters", Json.obj
         [("createdResources", Json.obj [("index", Json.str "idx")])])] =
      some ⟨Json.str "idx", Json.null, Json.null, Json.null⟩ ∧
    extract_resources_from_ks [("kind", Json.str "mystery")] = some noResources := by
  constructor
  · have h := ((extract_resources_dispatch
      [("kind", Json.str "azureBlob"),
       ("azureBlobParameters", Json.obj
         [("createdResources", Json.obj [("index", Json.str "idx")])])]).2.1
      "azureBlob" "azureBlobParameters" (by decide) (by decide)).1
      [("createdResources", Json.obj [("index", Json.str "idx")])]
      [("index", Json.str "idx")] (by decide) (by decide) (by decide)
    rw [h]
    decide
  · exact (extract_resources_dispatch [("kind", Json.str "mystery")]).2.2.2
      (by decide)

/-- C10: the sanitize transform builds a new document and the dry run never
modifies the file: whenever `sanitize_file` completes in dry-run mode, the
file content afterwards equals the original content, and the verdict is
exactly whether the serialization of the sanitized document differs from the
serialization of the original. -/
theorem sanitize_file_dry_run (content : Option Json) (res : Bool × Option Json)
    (h : sanitize_file content true = some res) :
    res.2 = content ∧
    (∀ d s, content = some d → sanitizeTop d = some s →
       res.1 = (dumps d != dumps s)) := by
  cases content with
  | none =>
      unfold sanitize_file at h
      have he : res = (false, none) := (Option.some.inj h).symm
      subst he
      exact ⟨rfl, fun d s hd => by cases hd⟩
  | some d =>
      unfold sanitize_file at h
      dsimp only at h
      cases hs : sanitizeTop d with
      | none => rw [hs] at h; exact Option.noConfusion h
      | some s =>
          rw [hs] at h
          dsimp only at h
          rw [if_pos rfl] at h
          have he : res = (dumps d != dumps s, some d) := (Option.some.inj h).symm
          subst he
          refine ⟨rfl, fun d2 s2 hd2 hs2 => ?_⟩
          have hdd : d2 = d := (Option.some.inj hd2).symm
          subst hdd
          rw [hs] at hs2
          rw [← Option.some.inj hs2]

/-- Witness for `sanitize_file_dry_run` on a document the Sanitizer changes. -/
theorem sanitize_file_dry_run_witness :
    sanitize_file (some (.obj [("apiKey", .str "abc123")])) true =
      some (true, some (.obj [("apiKey", .str "abc123")])) ∧
    ((true, some (Json.obj [("apiKey", Json.str "abc123")])) :
      Bool × Option Json).2 = some (.obj [("apiKey", .str "abc123")]) :=
  ⟨by decide,
   (sanitize_file_dry_run (some (.obj [("apiKey", .str "abc123")]))
     (true, some (.obj [("apiKey", .str "abc123")])) (by decide)).1⟩

/-! ### Graph exporter (`src/scripts/dump_az_search.py`, `main`) -/

/-- Count of a knowledge-source event is unaffected by consing an event of
another kind. -/
theorem count_cons_other (k : RKind) (m n : Json) (l : List (RKind × Json))
    (hk : k ≠ RKind.ks) :
    ((k, m) :: l).count (RKind.ks, n) = l.count (RKind.ks, n) := by
  refine List.count_cons_of_ne (fun he => ?_) l
  exact hk (congrArg Prod.fst he).symm

/-- Count of a knowledge-source event for one name is unaffected by consing a
knowledge-source event for a different name. -/
theorem count_cons_other_name (m n : Json) (l : List (RKind × Json)) (hmn : n ≠ m) :
    ((RKind.ks, m) :: l).count (RKind.ks, n) = l.count (RKind.ks, n) := by
  refine List.count_cons_of_ne (fun he => ?_) l
  exact hmn (congrArg Prod.snd he)

theorem ksSame_refl (st : ExpState) : KsSame st st := ⟨rfl, fun _ => ⟨rfl, rfl⟩⟩

theorem ksSame_trans (a b c : ExpState) (h1 : KsSame a b) (h2 : KsSame b c) :
    KsSame a c :=
  ⟨h2.1.trans h1.1, fun n => ⟨(h2.2 n).1.trans (h1.2 n).1, (h2.2 n).2.trans (h1.2 n).2⟩⟩

theorem processSynmaps_ksSame (env : SearchEnv) :
    ∀ (sms : List Json) (st : ExpState), KsSame st (processSynmaps env st sms)
  | [], st => ksSame_refl st
  | sm :: rest, st => by
      unfold processSynmaps
      refine ksSame_trans _ _ _ ?_ (processSynmaps_ksSame env rest _)
      by_cases hc : truthy sm = true ∧ sm ∉ st.seenSynmaps
      · rw [if_pos hc]
        cases hsm : env.synmap sm with
        | some syn =>
            dsimp only
            by_cases ht : truthy syn = true
            · rw [if_pos ht]
              exact ⟨rfl, fun n => ⟨count_cons_other _ _ _ _ (by decide),
                count_cons_other _ _ _ _ (by decide)⟩⟩
            · rw [if_neg ht]
              exact ⟨rfl, fun n => ⟨count_cons_other _ _ _ _ (by decide), rfl⟩⟩
        | none =>
            dsimp only
            exact ⟨rfl, fun n => ⟨count_cons_other _ _ _ _ (by decide), rfl⟩⟩
      · rw [if_neg hc]
        exact ksSame_refl _

theorem processIndexRes_ksSame (env : SearchEnv) (st st2 : ExpState) (name : Json)
    (h : processIndexRes env st name = some st2) : KsSame st st2 := by
  unfold processIndexRes at h
  by_cases hc : truthy name = true ∧ name ∉ st.seenIndexes
  · rw [if_pos hc] at h
    cases hidx : env.index name with
    | some idx =>
        rw [hidx] at h
        dsimp only at h
        by_cases ht : truthy idx = true
        · rw [if_pos ht] at h
          cases idx with
          | obj o =>
              dsimp only at h
              cases hit : pyIter (pyGetD o "synonymMaps" (.arr [])) with
              | some sms =>
                  rw [hit] at h
                  have he := (Option.some.inj h).symm
                  subst he
                  refine ksSame_trans _ _ _ ?_ (processSynmaps_ksSame env sms _)
                  exact ⟨rfl, fun n => ⟨count_cons_other _ _ _ _ (by decide),
                    count_cons_other _ _ _ _ (by decide)⟩⟩
              | none => rw [hit] at h; exact Option.noConfusion h
          | null => exact Option.noConfusion h
          | bool b => exact Option.noConfusion h
          | num n => exact Option.noConfusion h
          | str s => exact Option.noConfusion h
          | arr xs => exact Option.noConfusion h
        · rw [if_neg ht] at h
          have he := (Option.some.inj h).symm
          subst he
          exact ⟨rfl, fun n => ⟨count_cons_other _ _ _ _ (by decide), rfl⟩⟩
    | none =>
        rw [hidx] at h
        have he := (Option.some.inj h).symm
        subst he
        exact ⟨rfl, fun n => ⟨count_cons_other _ _ _ _ (by decide), rfl⟩⟩
  · rw [if_neg hc] at h
    have he := (Option.some.inj h).symm
    subst he
    exact ksSame_refl _

theorem processIndexerRes_ksSame (env : SearchEnv) (st : ExpState) (name : Json) :
    KsSame st (processIndexerRes env st name) := by
  unfold processIndexerRes
  by_cases hc : truthy name = true ∧ name ∉ st.seenIndexers
  · rw [if_pos hc]
    cases env.indexer name with
    | some d =>
        dsimp only
        by_cases ht : truthy d = true
        · rw [if_pos ht]
          exact ⟨rfl, fun n => ⟨count_cons_other _ _ _ _ (by decide),
            count_cons_other _ _ _ _ (by decide)⟩⟩
        · rw [if_neg ht]
          exact ⟨rfl, fun n => ⟨count_cons_other _ _ _ _ (by decide), rfl⟩⟩
    | none =>
        dsimp only
        exact ⟨rfl, fun n => ⟨count_cons_other _ _ _ _ (by decide), rfl⟩⟩
  · rw [if_neg hc]
    exact ksSame_refl _

theorem processDatasourceRes_ksSame (env : SearchEnv) (st : ExpState) (name : Json) :
    KsSame st (processDatasourceRes env st name) := by
  unfold processDatasourceRes
  by_cases hc : truthy name = true ∧ name ∉ st.seenDatasources
  · rw [if_pos hc]
    cases env.datasource name with
    | some d =>
        dsimp only
        by_cases ht : truthy d = true
        · rw [if_pos ht]
          exact ⟨rfl, fun n => ⟨count_cons_other _ _ _ _ (by decide),
            count_cons_other _ _ _ _ (by decide)⟩⟩
        · rw [if_neg ht]
          exact ⟨rfl, fun n => ⟨count_cons_other _ _ _ _ (by decide), rfl⟩⟩
    | none =>
        dsimp only
        exact ⟨rfl, fun n => ⟨count_cons_other _ _ _ _ (by decide), rfl⟩⟩
  · rw [if_neg hc]
    exact ksSame_refl _

theorem processSkillsetRes_ksSame (env : SearchEnv) (st : ExpState) (name : Json) :
    KsSame st (processSkillsetRes env st name) := by
  unfold processSkillsetRes
  by_cases hc : truthy name = true ∧ name ∉ st.seenSkillsets
  · rw [if_pos hc]
    cases env.skillset name with
    | some d =>
        dsimp only
        by_cases ht : truthy d = true
        · rw [if_pos ht]
          exact ⟨rfl, fun n => ⟨count_cons_other _ _ _ _ (by decide),
            count_cons_other _ _ _ _ (by decide)⟩⟩
        · rw [if_neg ht]
          exact ⟨rfl, fun n => ⟨count_cons_other _ _ _ _ (by decide), rfl⟩⟩
    | none =>
        dsimp only
        exact ⟨rfl, fun n => ⟨count_cons_other _ _ _ _ (by decide), rfl⟩⟩
  · rw [if_neg hc]
    exact ksSame_refl _

theorem processKSref_inv (env : SearchEnv) (st st2 : ExpState) (ksRef : Json)
    (h : processKSref env st ksRef = some st2) (hinv : KsInv env st) :
    KsInv env st2 ∧ (∀ n, n ∈ st.seenKs → n ∈ st2.seenKs) ∧
    (∀ (r : List (String × Json)) (n : Json), ksRef = .obj r →
       pyGet r "name" = n → truthy n = true →
       (∃ d, env.ks n = some d ∧ truthy d = true) → n ∈ st2.seenKs) := by
  cases ksRef with
  | obj r =>
      simp only [processKSref] at h
      by_cases hskip : truthy (pyGet r "name") = false ∨ pyGet r "name" ∈ st.seenKs
      · rw [if_pos hskip] at h
        have he : st2 = st := (Option.some.inj h).symm
        subst he
        refine ⟨hinv, fun n hn => hn, ?_⟩
        intro r2 n hre hn hnt hex
        have hrr : r2 = r := (Json.obj.inj hre).symm
        subst hrr
        subst hn
        rcases hskip with hf | hm
        · rw [hnt] at hf
          cases hf
        · exact hm
      · rw [if_neg hskip] at h
        have hns := not_or.mp hskip
        have hnotin : pyGet r "name" ∉ st.seenKs := hns.2
        cases hks : env.ks (pyGet r "name") with
        | none =>
            rw [hks] at h
            have he : st2 =
                { st with fetches := (RKind.ks, pyGet r "name") :: st.fetches } :=
              (Option.some.inj h).symm
            subst he
            refine ⟨?_, fun n hn => hn, ?_⟩
            · intro m hex
              by_cases hmn : m = pyGet r "name"
              · subst hmn
                obtain ⟨d, hd, _⟩ := hex
                rw [hks] at hd
                exact Option.noConfusion hd
              · obtain ⟨hf, hd⟩ := hinv m hex
                exact ⟨by rw [count_cons_other_name _ _ _ hmn]; exact hf, hd⟩
            · intro r2 n hre hn hnt hex
              have hrr : r2 = r := (Json.obj.inj hre).symm
              subst hrr
              subst hn
              obtain ⟨d, hd, _⟩ := hex
              rw [hks] at hd
              exact Option.noConfusion hd
        | some ksDoc =>
            rw [hks] at h
            dsimp only at h
            by_cases hdf : truthy ksDoc = false
            · rw [if_pos hdf] at h
              have he : st2 =
                  { st with fetches := (RKind.ks, pyGet r "name") :: st.fetches } :=
                (Option.some.inj h).symm
              subst he
              refine ⟨?_, fun n hn => hn, ?_⟩
              · intro m hex
                by_cases hmn : m = pyGet r "name"
                · subst hmn
                  obtain ⟨d, hd, hdt⟩ := hex
                  rw [hks] at hd
                  rw [← Option.some.inj hd] at hdt
                  rw [hdt] at hdf
                  cases hdf
                · obtain ⟨hf, hd⟩ := hinv m hex
                  exact ⟨by rw [count_cons_other_name _ _ _ hmn]; exact hf, hd⟩
              · intro r2 n hre hn hnt hex
                have hrr : r2 = r := (Json.obj.inj hre).symm
                subst hrr
                subst hn
                obtain ⟨d, hd, hdt⟩ := hex
                rw [hks] at hd
                rw [← Option.some.inj hd] at hdt
                rw [hdt] at hdf
                cases hdf
            · rw [if_neg hdf] at h
              cases ksDoc with
              | obj ksO =>
                  dsimp only at h
                  cases hext : extract_resources_from_ks ksO with
                  | none => rw [hext] at h; exact Option.noConfusion h
                  | some res =>
                      rw [hext] at h
                      dsimp only at h
                      cases hidx : processIndexRes env
                          { st with
                            fetches := (RKind.ks, pyGet r "name") :: st.fetches
                            dumps := (RKind.ks, pyGet r "name") :: st.dumps
                            seenKs := pyGet r "name" :: st.seenKs }
                          res.indexName with
                      | none => rw [hidx] at h; exact Option.noConfusion h
                      | some st3 =>
                          rw [hidx] at h
                          have he : st2 = processSkillsetRes env
                              (processDatasourceRes env
                                (processIndexerRes env st3 res.indexerName)
                                res.dataSourceName) res.skillsetName :=
                            (Option.some.inj h).symm
                          have hsame : KsSame
                              { st with
                                fetches := (RKind.ks, pyGet r "name") :: st.fetches
                                dumps := (RKind.ks, pyGet r "name") :: st.dumps
                                seenKs := pyGet r "name" :: st.seenKs } st2 := by
                            rw [he]
                            refine ksSame_trans _ _ _
                              (processIndexRes_ksSame env _ st3 _ hidx)
                              (ksSame_trans _ _ _ (processIndexerRes_ksSame env _ _)
                                (ksSame_trans _ _ _ (processDatasourceRes_ksSame env _ _)
                                  (processSkillsetRes_ksSame env _ _)))
                          obtain ⟨hseen, hcnt⟩ := hsame
                          refine ⟨?_, ?_, ?_⟩
                          · intro m hex
                            obtain ⟨hfm, hdm⟩ := hcnt m
                            rw [hfm, hdm, hseen]
                            by_cases hmn : m = pyGet r "name"
                            · subst hmn
                              obtain ⟨hf0, hd0⟩ := hinv _ hex
                              rw [if_neg hnotin] at hf0 hd0
                              constructor
                              · rw [if_pos (List.mem_cons_self _ _)]
                                dsimp only
                                rw [List.count_cons_self, hf0]
                              · rw [if_pos (List.mem_cons_self _ _)]
                                dsimp only
                                rw [List.count_cons_self, hd0]
                            · obtain ⟨hf0, hd0⟩ := hinv m hex
                              have hmm : (if m ∈ pyGet r "name" :: st.seenKs
                                    then 1 else 0) =
                                  (if m ∈ st.seenKs then (1 : Nat) else 0) := by
                                by_cases hm2 : m ∈ st.seenKs
                                · rw [if_pos (List.mem_cons_of_mem _ hm2), if_pos hm2]
                                · have hnc : m ∉ pyGet r "name" :: st.seenKs := by
                                    intro hc
                                    rcases List.mem_cons.mp hc with hce | hcm
                                    · exact hmn hce
                                    · exact hm2 hcm
                                  rw [if_neg hnc, if_neg hm2]
                              constructor
                              · dsimp only
                                rw [count_cons_other_name _ _ _ hmn, hmm]
                                exact hf0
                              · dsimp only
                                rw [count_cons_other_name _ _ _ hmn, hmm]
                                exact hd0
                          · intro n hn
                            rw [hseen]
                            exact List.mem_cons_of_mem _ hn
                          · intro r2 n hre hn hnt hex
                            have hrr : r2 = r := (Json.obj.inj hre).symm
                            subst hrr
                            subst hn
                            rw [hseen]
                            exact List.mem_cons_self _ _
              | null => cases hdf rfl
              | bool b => exact Option.noConfusion h
              | num nn => exact Option.noConfusion h
              | str s => exact Option.noConfusion h
              | arr xs => exact Option.noConfusion h
  | null => exact Option.noConfusion h
  | bool b => exact Option.noConfusion h
  | num nn => exact Option.noConfusion h
  | str s => exact Option.noConfusion h
  | arr xs => exact Option.noConfusion h

theorem runKSrefs_inv (env : SearchEnv) :
    ∀ (refs : List Json) (st st2 : ExpState),
      runKSrefs env st refs = some st2 → KsInv env st →
      KsInv env st2 ∧ (∀ n, n ∈ st.seenKs → n ∈ st2.seenKs) ∧
      (∀ (r : List (String × Json)) (n : Json), (Json.obj r) ∈ refs →
         pyGet r "name" = n → truthy n = true →
         (∃ d, env.ks n = some d ∧ truthy d = true) → n ∈ st2.seenKs)
  | [], st, st2, h, hinv => by
      have he : st2 = st := (Option.some.inj h).symm
      subst he
      exact ⟨hinv, fun n hn => hn,
        fun r n hmem => absurd hmem (List.not_mem_nil _)⟩
  | r0 :: rest, st, st2, h, hinv => by
      unfold runKSrefs at h
      cases h1 : processKSref env st r0 with
      | none => rw [h1] at h; exact Option.noConfusion h
      | some stm =>
          rw [h1] at h
          obtain ⟨hinv1, hmono1, hpost1⟩ := processKSref_inv env st stm r0 h1 hinv
          obtain ⟨hinv2, hmono2, hpost2⟩ := runKSrefs_inv env rest stm st2 h hinv1
          refine ⟨hinv2, fun n hn => hmono2 n (hmono1 n hn), ?_⟩
          intro r n hmem hn hnt hex
          rcases List.mem_cons.mp hmem with heq | hmem2
          · exact hmono2 n (hpost1 r n heq.symm hn hnt hex)
          · exact hpost2 r n hmem2 hn hnt hex

theorem processKB_inv (env : SearchEnv) (st st2 : ExpState) (name : String)
    (h : processKB env st name = some st2) (hinv : KsInv env st) :
    KsInv env st2 ∧ (∀ n, n ∈ st.seenKs → n ∈ st2.seenKs) ∧
    (∀ (kbDoc : Json) (o : List (String × Json)) (refs : List Json)
       (r : List (String × Json)) (n : Json),
       env.kb (.str name) = some kbDoc → truthy kbDoc = true → kbDoc = .obj o →
       pyIter (pyGetD o "knowledgeSources" (.arr [])) = some refs →
       (Json.obj r) ∈ refs → pyGet r "name" = n → truthy n = true →
       (∃ d, env.ks n = some d ∧ truthy d = true) → n ∈ st2.seenKs) := by
  simp only [processKB] at h
  have hinv1 : KsInv env { st with fetches := (RKind.kb, .str name) :: st.fetches } := by
    intro m hex
    obtain ⟨hf, hd⟩ := hinv m hex
    exact ⟨by rw [count_cons_other _ _ _ _ (by decide)]; exact hf, hd⟩
  cases hkb : env.kb (.str name) with
  | none =>
      rw [hkb] at h
      dsimp only at h
      have he : st2 = { st with fetches := (RKind.kb, .str name) :: st.fetches } :=
        (Option.some.inj h).symm
      subst he
      refine ⟨hinv1, fun n hn => hn, ?_⟩
      intro kbDoc o refs r n hkb2 _ _ _ _ _ _ _
      exact Option.noConfusion hkb2
  | some kbDoc =>
      rw [hkb] at h
      dsimp only at h
      by_cases ht : truthy kbDoc = false
      · rw [if_pos ht] at h
        have he : st2 = { st with fetches := (RKind.kb, .str name) :: st.fetches } :=
          (Option.some.inj h).symm
        subst he
        refine ⟨hinv1, fun n hn => hn, ?_⟩
        intro kbDoc2 o refs r n hkb2 htt _ _ _ _ _ _
        have hdd : kbDoc = kbDoc2 := Option.some.inj hkb2
        rw [← hdd] at htt
        rw [htt] at ht
        cases ht
      · rw [if_neg ht] at h
        cases kbDoc with
        | obj o0 =>
            dsimp only at h
            cases hit : pyIter (pyGetD o0 "knowledgeSources" (.arr [])) with
            | none => rw [hit] at h; exact Option.noConfusion h
            | some refs0 =>
                rw [hit] at h
                have hinv2 : KsInv env
                    { st with
                      fetches := (RKind.kb, .str name) :: st.fetches
                      dumps := (RKind.kb, .str name) :: st.dumps } := by
                  intro m hex
                  obtain ⟨hf, hd⟩ := hinv m hex
                  exact ⟨by rw [count_cons_other _ _ _ _ (by decide)]; exact hf,
                    by rw [count_cons_other _ _ _ _ (by decide)]; exact hd⟩
                obtain ⟨hinv3, hmono3, hpost3⟩ :=
                  runKSrefs_inv env refs0 _ st2 h hinv2
                refine ⟨hinv3, fun n hn => hmono3 n hn, ?_⟩
                intro kbDoc2 o refs r n hkb2 _ hobj hrefs hr hn hnt hex
                have hdd : kbDoc2 = Json.obj o0 :=
                  (Option.some.inj hkb2).symm
                rw [hdd] at hobj
                have hoo : o = o0 := (Json.obj.inj hobj).symm
                rw [hoo] at hrefs
                rw [hit] at hrefs
                have hrr : refs = refs0 := Option.some.inj hrefs.symm
                rw [hrr] at hr
                exact hpost3 r n hr hn hnt hex
        | null => cases ht rfl
        | bool b => exact Option.noConfusion h
        | num nn => exact Option.noConfusion h
        | str s => exact Option.noConfusion h
        | arr xs => exact Option.noConfusion h

theorem runExport_inv (env : SearchEnv) :
    ∀ (roots : List String) (st st2 : ExpState),
      runExport env st roots = some st2 → KsInv env st →
      KsInv env st2 ∧ (∀ n, n ∈ st.seenKs → n ∈ st2.seenKs) ∧
      (∀ name, name ∈ roots →
        ∀ (kbDoc : Json) (o : List (String × Json)) (refs : List Json)
          (r : List (String × Json)) (n : Json),
          env.kb (.str name) = some kbDoc → truthy kbDoc = true → kbDoc = .obj o →
          pyIter (pyGetD o "knowledgeSources" (.arr [])) = some refs →
          (Json.obj r) ∈ refs → pyGet r "name" = n → truthy n = true →
          (∃ d, env.ks n = some d ∧ truthy d = true) → n ∈ st2.seenKs)
  | [], st, st2, h, hinv => by
      have he : st2 = st := (Option.some.inj h).symm
      subst he
      exact ⟨hinv, fun n hn => hn,
        fun name hmem => absurd hmem (List.not_mem_nil _)⟩
  | n0 :: rest, st, st2, h, hinv => by
      unfold runExport at h
      cases h1 : processKB env st n0 with
      | none => rw [h1] at h; exact Option.noConfusion h
      | some stm =>
          rw [h1] at h
          obtain ⟨hinv1, hmono1, hpost1⟩ := processKB_inv env st stm n0 h1 hinv
          obtain ⟨hinv2, hmono2, hpost2⟩ := runExport_inv env rest stm st2 h hinv1
          refine ⟨hinv2, fun n hn => hmono2 n (hmono1 n hn), ?_⟩
          intro name hmem kbDoc o refs r n hkb htt hobj hrefs hr hn hnt hex
          rcases List.mem_cons.mp hmem with heq | hmem2
          · subst heq
            exact hmono2 n (hpost1 kbDoc o refs r n hkb htt hobj hrefs hr hn hnt hex)
          · exact hpost2 name hmem2 kbDoc o refs r n hkb htt hobj hrefs hr hn hnt hex

/-- C7: in every successful export run over root knowledge-base names, a
knowledge source that exists (truthy) on the service and is referenced by
a found root knowledge base is fetched exactly once and persisted exactly
once; in particular, when two root knowledge bases reference the same
knowledge-source name, the second reference is skipped through the per-run
dedup set `seenKs`. -/
theorem export_dedups_knowledge_sources (env : SearchEnv) (roots : List String)
    (st : ExpState) (h : runExport env initExpState roots = some st)
    (kbName : String) (hroot : kbName ∈ roots) (kbDoc : Json)
    (hkb : env.kb (.str kbName) = some kbDoc) (hkbt : truthy kbDoc = true)
    (o : List (String × Json)) (ho : kbDoc = .obj o) (refs : List Json)
    (hrefs : pyIter (pyGetD o "knowledgeSources" (.arr [])) = some refs)
    (r : List (String × Json)) (hr : (Json.obj r) ∈ refs)
    (n : Json) (hn : pyGet r "name" = n) (hnt : truthy n = true)
    (ksDoc : Json) (hks : env.ks n = some ksDoc) (hkst : truthy ksDoc = true) :
    st.fetches.count (RKind.ks, n) = 1 ∧ st.dumps.count (RKind.ks, n) = 1 := by
  have hinv0 : KsInv env initExpState := by
    intro m hex
    constructor <;> simp [initExpState]
  obtain ⟨hinv, hmono, hpost⟩ := runExport_inv env roots initExpState st h hinv0
  have hmem : n ∈ st.seenKs :=
    hpost kbName hroot kbDoc o refs r n hkb hkbt ho hrefs hr hn hnt
      ⟨ksDoc, hks, hkst⟩
  obtain ⟨hf, hd⟩ := hinv n ⟨ksDoc, hks, hkst⟩
  rw [if_pos hmem] at hf hd
  exact ⟨hf, hd⟩

theorem export_dedups_knowledge_sources_witness :
    runExport envC initExpState ["kb1", "kb2"] = some stC ∧
    stC.fetches.count (RKind.ks, .str "ks1") = 1 ∧
    stC.dumps.count (RKind.ks, .str "ks1") = 1 := by
  refine ⟨by decide, ?_⟩
  exact export_dedups_knowledge_sources envC ["kb1", "kb2"] stC (by decide)
    "kb1" (by decide) kbDocC1 (by decide) (by decide)
    [("name", .str "kb1"),
     ("knowledgeSources", .arr [.obj [("name", .str "ks1")]])] rfl
    [.obj [("name", .str "ks1")]] (by decide)
    [("name", .str "ks1")] (by decide)
    (.str "ks1") rfl (by decide)
    ksDocC (by decide) (by decide)
